import Mathlib

/-!
ConvPNG, the C output backend (`src/c_format.c`).

A shallow embedding of the C-dialect emission backend and of the routine it
emits, followed by the properties proved about them.

* Text is a list of characters; `const char *` arguments are texts.
* `unsigned int` and `uint8_t` values are natural numbers; range assumptions
  appear as hypotheses, and wrap-around is written `% 2 ^ w` where the source
  computes.
* A `FILE *` is an optional `FILE` record; an `output_t` is the pair of
  handles `c` (definition stream) and `h` (declaration stream).
-/

namespace ConvPNG

/-! ## Text and `printf` conversions -/

/-- Text written to a stream or passed as a C string. -/
abbrev Text := List Char

/-- The digit characters used by `%u` and `%X` (upper-case hexadecimal). -/
def digitChar (d : Nat) : Char := "0123456789ABCDEF".toList.getD d '?'

/-- Digits of `n` in `base`, most significant first, no leading zero;
`fuel` bounds the number of digits. -/
def fmtNatAux (base : Nat) : Nat → Nat → Text
  | 0, n => [digitChar (n % base)]
  | fuel + 1, n =>
    if n < base then [digitChar n]
    else fmtNatAux base fuel (n / base) ++ [digitChar (n % base)]

/-- Digits of `n` in `base` (a number never has more than `n + 1` digits). -/
def fmtNat (base n : Nat) : Text := fmtNatAux base n n

/-- Left padding with `0` up to a minimum field width (the `0w` flag). -/
def zeroPad (w : Nat) (s : Text) : Text := List.replicate (w - s.length) '0' ++ s

/-- Conversion `%u`. -/
def fmt_u (n : Nat) : Text := fmtNat 10 n

/-- Conversion `%02u`. -/
def fmt_02u (n : Nat) : Text := zeroPad 2 (fmtNat 10 n)

/-- Conversion `%02X`. -/
def fmt_02X (n : Nat) : Text := zeroPad 2 (fmtNat 16 n)

/-- Conversion `%04X`. -/
def fmt_04X (n : Nat) : Text := zeroPad 4 (fmtNat 16 n)

/-! ## Streams -/

/-- An output file: the text written so far and whether it was closed. -/
structure FILE where
  text : Text
  closed : Bool
deriving DecidableEq

/-- The pair of stream handles of a backend (`output_t` of `format.h`):
`c` is the definition stream, `h` the declaration stream. -/
structure output_t where
  c : Option FILE
  h : Option FILE
deriving DecidableEq

/-- Formatted write of an already formatted text. A null handle or a closed
file receives nothing. -/
def fprintf (stream : Option FILE) (s : Text) : Option FILE :=
  match stream with
  | some f => if f.closed then some f else some { f with text := f.text ++ s }
  | none => none

/-- The call `fprintf(out->c, ...)`. -/
def fprintf_c (out : output_t) (s : Text) : output_t := { out with c := fprintf out.c s }

/-- The call `fprintf(out->h, ...)`. -/
def fprintf_h (out : output_t) (s : Text) : output_t := { out with h := fprintf out.h s }

/-- An output whose two streams are open and hold `tc` and `th`. -/
def streams (tc th : Text) : output_t :=
  { c := some { text := tc, closed := false }, h := some { text := th, closed := false } }

/-- The loop `for (i = 0; i < n; i++) s = body(i, s);`. -/
def forUpTo {σ : Type} (body : Nat → σ → σ) : Nat → σ → σ
  | 0, s => s
  | n + 1, s => body n (forUpTo body n s)

/-! ## Palette types (libimagequant) -/

/-- A colour `liq_color`: four `unsigned char` channels. -/
structure liq_color where
  r : Nat
  g : Nat
  b : Nat
  a : Nat
deriving DecidableEq

/-- A palette `liq_palette`: entry count and the entry array. -/
structure liq_palette where
  count : Nat
  entries : List liq_color
deriving DecidableEq

/-- Array read `pal->entries[j]`; reads past the array are outside C and
give the zero colour here. -/
def liq_palette.entry (pal : liq_palette) (j : Nat) : liq_color :=
  pal.entries.getD j ⟨0, 0, 0, 0⟩

/-! ## The backend operations of `c_format.c` -/

/-- Source function `c_open_output`. `fopen` is the answer of the file system
for a path opened for writing (`none` when the file cannot be created). After
a failed `fopen` the source calls `errorf` (`logging.h`), which ends the run:
the result is then an error carrying the message. With a null `input` nothing
is opened. -/
def c_open_output (fopen : Text → Option FILE) (out : output_t) (input : Option Text)
    (header : Bool) : Except Text output_t :=
  match input with
  | some path =>
    match fopen path with
    | none => .error ("opening ".toList ++ path ++ " for output.".toList)
    | some file =>
      if header then .ok { out with h := some file } else .ok { out with c := some file }
  | none => .ok out

/-- Source function `c_close_output`: closes the stream selected by `header` when its
handle is present. -/
def c_close_output (out : output_t) (header : Bool) : output_t :=
  if header then
    match out.h with
    | some f => { out with h := some { f with closed := true } }
    | none => out
  else
    match out.c with
    | some f => { out with c := some { f with closed := true } }
    | none => out

/-- Source function `c_print_source_header`. -/
def c_print_source_header (out : output_t) (header_file_name : Option Text) : output_t :=
  let out := fprintf_c out "// Converted using ConvPNG\n".toList
  let out := fprintf_c out "#include <stdint.h>\n".toList
  match header_file_name with
  | some n => fprintf_c out ("#include \"".toList ++ n ++ "\"\n\n".toList)
  | none => out

/-- Source function `c_print_header_header`. -/
def c_print_header_header (out : output_t) (group_name : Text) : output_t :=
  let out := fprintf_h out "// Converted using ConvPNG\n".toList
  let out := fprintf_h out
    "// This file contains all the graphics sources for easier inclusion in a project\n".toList
  let out := fprintf_h out
    ("#ifndef __".toList ++ group_name ++ "__\n#define __".toList ++ group_name ++ "__\n".toList)
  fprintf_h out "#include <stdint.h>\n\n".toList

/-- Source function `c_print_palette`; `rgb1555` is the colour packer of `misc.h`, which this
file only calls. -/
def c_print_palette (rgb1555 : Nat → Nat → Nat → Nat) (out : output_t) (group_name : Text)
    (pal : liq_palette) (pal_len : Nat) : output_t :=
  let out := fprintf_c out
    ("uint16_t ".toList ++ group_name ++ "_pal[".toList ++ fmt_u pal_len ++ "] = \x7b\n".toList)
  let out := forUpTo (fun j out =>
    let e := pal.entry j
    fprintf_c out
      (" 0x".toList ++ fmt_04X (rgb1555 e.r e.g e.b) ++ ",  // ".toList ++ fmt_02u j ++
        " :: rgba(".toList ++ fmt_u e.r ++ ",".toList ++ fmt_u e.g ++ ",".toList ++
        fmt_u e.b ++ ",".toList ++ fmt_u e.a ++ ")\n".toList)) pal_len out
  fprintf_c out "\x7d;".toList

/-- Source function `c_print_transparent_index`. -/
def c_print_transparent_index (out : output_t) (group_name : Text) (index : Nat) : output_t :=
  fprintf_h out
    ("#define ".toList ++ group_name ++ "_transparent_color_index ".toList ++ fmt_u index ++
      "\n\n".toList)

/-- Source function `c_print_image_source_header`. -/
def c_print_image_source_header (out : output_t) (group_header_file_name : Text) : output_t :=
  let out := fprintf_c out "// Converted using ConvPNG\n".toList
  let out := fprintf_c out "#include <stdint.h>\n".toList
  fprintf_c out
    ("#include \"".toList ++ group_header_file_name ++ "\"\n\n".toList)

/-- Source function `c_print_tile`. -/
def c_print_tile (out : output_t) (i_name : Text) (tile_num size width height : Nat) :
    output_t :=
  fprintf_c out
    ("uint8_t ".toList ++ i_name ++ "_tile_".toList ++ fmt_u tile_num ++ "_data[".toList ++
      fmt_u size ++ "] = \x7b\n ".toList ++ fmt_u width ++ ",\t// tile_width\n ".toList ++
      fmt_u height ++ ",\t// tile_height\n ".toList)

/-- Source function `c_print_tile_ptrs`. -/
def c_print_tile_ptrs (out : output_t) (i_name : Text) (num_tiles : Nat) (compressed : Bool) :
    output_t :=
  let out :=
    if compressed then
      let out := fprintf_c out
        ("uint8_t *".toList ++ i_name ++ "_tiles_compressed[".toList ++ fmt_u num_tiles ++
          "] = \x7b\n".toList)
      forUpTo (fun i out => fprintf_c out
        (" ".toList ++ i_name ++ "_tile_".toList ++ fmt_u i ++ "_compressed,\n".toList))
        num_tiles out
    else
      let out := fprintf_c out
        ("uint8_t *".toList ++ i_name ++ "_tiles_data[".toList ++ fmt_u num_tiles ++
          "] = \x7b\n".toList)
      forUpTo (fun i out => fprintf_c out
        (" ".toList ++ i_name ++ "_tile_".toList ++ fmt_u i ++ "_data,\n".toList))
        num_tiles out
  fprintf_c out "\x7d;\n".toList

/-- Source function `c_print_compressed_tile`. -/
def c_print_compressed_tile (out : output_t) (i_name : Text) (tile_num size : Nat) : output_t :=
  fprintf_c out
    ("uint8_t ".toList ++ i_name ++ "_tile_".toList ++ fmt_u tile_num ++
      "_compressed[".toList ++ fmt_u size ++ "] = \x7b\n".toList)

/-- Source function `c_print_byte`; `need_comma` is ignored, as in the source. -/
def c_print_byte (out : output_t) (byte : Nat) (_need_comma : Bool) : output_t :=
  fprintf_c out ("0x".toList ++ fmt_02X byte ++ ",".toList)

/-- Source function `c_print_next_array_line`. -/
def c_print_next_array_line (out : output_t) (at_end : Bool) : output_t :=
  if at_end then fprintf_c out "\n\x7d;\n".toList
  else fprintf_c out "\n ".toList

/-- Source function `c_print_image`. -/
def c_print_image (out : output_t) (bpp : Nat) (i_name : Text) (size width height : Nat) :
    output_t :=
  fprintf_c out
    ("// ".toList ++ fmt_u bpp ++ " bpp image\nuint8_t ".toList ++ i_name ++ "_data[".toList ++
      fmt_u size ++ "] = \x7b\n ".toList ++ fmt_u width ++ ",".toList ++ fmt_u height ++
      ",  // width,height\n ".toList)

/-- Source function `c_print_compressed_image`. -/
def c_print_compressed_image (out : output_t) (bpp : Nat) (i_name : Text) (size : Nat) :
    output_t :=
  fprintf_c out
    ("// ".toList ++ fmt_u bpp ++ " bpp image\nuint8_t ".toList ++ i_name ++
      "_compressed[".toList ++ fmt_u size ++ "] = \x7b\n ".toList)

/-- Source function `c_print_tiles_header`. -/
def c_print_tiles_header (out : output_t) (i_name : Text) (num_tiles : Nat) (compressed : Bool) :
    output_t :=
  if compressed then
    forUpTo (fun i out => fprintf_h out
      ("extern uint8_t ".toList ++ i_name ++ "_tile_".toList ++ fmt_u i ++
        "_compressed[];\n".toList)) num_tiles out
  else
    forUpTo (fun i out =>
      let out := fprintf_h out
        ("extern uint8_t ".toList ++ i_name ++ "_tile_".toList ++ fmt_u i ++
          "_data[];\n".toList)
      fprintf_h out
        ("#define ".toList ++ i_name ++ "_tile_".toList ++ fmt_u i ++
          " ((gfx_image_t*)".toList ++ i_name ++ "_tile_".toList ++ fmt_u i ++
          "_data)\n".toList)) num_tiles out

/-- Source function `c_print_tiles_ptrs_header`. -/
def c_print_tiles_ptrs_header (out : output_t) (i_name : Text) (num_tiles : Nat)
    (compressed : Bool) : output_t :=
  if compressed then
    fprintf_h out
      ("extern uint8_t *".toList ++ i_name ++ "_tiles_compressed[".toList ++ fmt_u num_tiles ++
        "];\n".toList)
  else
    let out := fprintf_h out
      ("extern uint8_t *".toList ++ i_name ++ "_tiles_data[".toList ++ fmt_u num_tiles ++
        "];\n".toList)
    fprintf_h out
      ("#define ".toList ++ i_name ++ "_tiles ((gfx_image_t**)".toList ++ i_name ++
        "_tiles_data)\n".toList)

/-- Source function `c_print_image_header`. -/
def c_print_image_header (out : output_t) (i_name : Text) (size : Nat) (compressed : Bool) :
    output_t :=
  if compressed then
    fprintf_h out
      ("extern uint8_t ".toList ++ i_name ++ "_compressed[".toList ++ fmt_u size ++
        "];\n".toList)
  else
    let out := fprintf_h out
      ("extern uint8_t ".toList ++ i_name ++ "_data[".toList ++ fmt_u size ++ "];\n".toList)
    fprintf_h out
      ("#define ".toList ++ i_name ++ " ((gfx_image_t*)".toList ++ i_name ++ "_data)\n".toList)

/-- Source function `c_print_transparent_image_header`. -/
def c_print_transparent_image_header (out : output_t) (i_name : Text) (size : Nat)
    (compressed : Bool) : output_t :=
  if compressed then
    fprintf_h out
      ("extern uint8_t ".toList ++ i_name ++ "_compressed[".toList ++ fmt_u size ++
        "];\n".toList)
  else
    let out := fprintf_h out
      ("extern uint8_t ".toList ++ i_name ++ "_data[".toList ++ fmt_u size ++ "];\n".toList)
    fprintf_h out
      ("#define ".toList ++ i_name ++ " ((gfx_timage_t*)".toList ++ i_name ++ "_data)\n".toList)

/-- Source function `c_print_palette_header`; `len*2` is an `unsigned int` product. -/
def c_print_palette_header (out : output_t) (name : Text) (len : Nat) : output_t :=
  let out := fprintf_h out
    ("#define sizeof_".toList ++ name ++ "_pal ".toList ++ fmt_u (len * 2 % 2 ^ 32) ++
      "\n".toList)
  fprintf_h out
    ("extern uint16_t ".toList ++ name ++ "_pal[".toList ++ fmt_u len ++ "];\n".toList)

/-- Source function `c_print_end_header`. -/
def c_print_end_header (out : output_t) : output_t :=
  fprintf_h out "\n#endif\n".toList

/-- Source function `c_print_appvar_array`. -/
def c_print_appvar_array (out : output_t) (a_name : Text) (num_images : Nat) : output_t :=
  let out := fprintf_c out
    ("uint8_t *".toList ++ a_name ++ "[".toList ++ fmt_u num_images ++ "] = \x7b\n ".toList)
  let out := fprintf_h out "#include <stdbool.h>\n\n".toList
  let out := fprintf_h out
    ("#define ".toList ++ a_name ++ "_num ".toList ++ fmt_u num_images ++ "\n\n".toList)
  fprintf_h out
    ("extern uint8_t *".toList ++ a_name ++ "[".toList ++ fmt_u num_images ++ "];\n".toList)

/-- Source function `c_print_appvar_image`. -/
def c_print_appvar_image (out : output_t) (a_name : Text) (offset : Nat) (i_name : Text)
    (index : Nat) (compressed tp_style : Bool) : output_t :=
  let s : Text := if tp_style then "gfx_timage_t".toList else "gfx_image_t".toList
  let out := fprintf_c out ("(uint8_t*)".toList ++ fmt_u offset ++ ",".toList)
  if compressed then
    fprintf_h out
      ("#define ".toList ++ i_name ++ "_compressed ((".toList ++ s ++ "*)".toList ++ a_name ++
        "[".toList ++ fmt_u index ++ "])\n".toList)
  else
    fprintf_h out
      ("#define ".toList ++ i_name ++ " ((".toList ++ s ++ "*)".toList ++ a_name ++
        "[".toList ++ fmt_u index ++ "])\n".toList)

/-- Source function `c_print_appvar_palette`. -/
def c_print_appvar_palette (out : output_t) (offset : Nat) : output_t :=
  fprintf_c out ("(uint8_t*)".toList ++ fmt_u offset ++ ",".toList)

/-- Source function `c_print_appvar_load_function_header`. -/
def c_print_appvar_load_function_header (out : output_t) : output_t :=
  fprintf_c out "#include <fileioc.h>\n".toList

/-- Source function `c_print_appvar_load_function`: the text of the routine `<a_name>_init`
and its prototype. -/
def c_print_appvar_load_function (out : output_t) (a_name : Text) : output_t :=
  let out := fprintf_c out ("\nbool ".toList ++ a_name ++ "_init(void) \x7b\n".toList)
  let out := fprintf_c out "    unsigned int i;\n".toList
  let out := fprintf_c out "    ti_var_t appvar;\n".toList
  let out := fprintf_c out "    void *data;\n\n".toList
  let out := fprintf_c out "    ti_CloseAll();\n\n".toList
  let out := fprintf_c out
    ("    appvar = ti_Open(\"".toList ++ a_name ++ "\", \"r\");\n".toList)
  let out := fprintf_c out "    data = ti_GetDataPtr(appvar);\n".toList
  let out := fprintf_c out
    ("    for (i = 0; i < ".toList ++ a_name ++ "_num; i++) \x7b\n".toList)
  let out := fprintf_c out
    ("        ".toList ++ a_name ++ "[i] += (unsigned int)data - (unsigned int)".toList ++
      a_name ++ "[0];\n".toList)
  let out := fprintf_c out "    \x7d\n\n".toList
  let out := fprintf_c out "    ti_CloseAll();\n".toList
  let out := fprintf_c out "    return (bool)appvar;\n".toList
  let out := fprintf_c out "\x7d\n".toList
  fprintf_h out ("\nbool ".toList ++ a_name ++ "_init(void);\n".toList)

/-- Source function `c_print_appvar_palette_header`; `len*2` is an `unsigned int` product. -/
def c_print_appvar_palette_header (out : output_t) (p_name a_name : Text) (index len : Nat) :
    output_t :=
  let out := fprintf_h out
    ("#define sizeof_".toList ++ p_name ++ "_pal ".toList ++ fmt_u (len * 2 % 2 ^ 32) ++
      "\n".toList)
  fprintf_h out
    ("#define ".toList ++ p_name ++ "_pal ((uint16_t*)".toList ++ a_name ++ "[".toList ++
      fmt_u index ++ "])\n".toList)

/-! ## The routine emitted by `c_print_appvar_load_function`

The text written at lines 194-206 of `c_format.c` is the C function
`bool <a_name>_init(void)`. Its statements are embedded below over a pointer
table held as a list of addresses; `w` is the width in bits of the target's
`unsigned int` and of its data pointers. -/

/-- The statement `a[i] += (unsigned int)data - (unsigned int)a[0];` of the
emitted loop: `a[0]` is read from the table as it is when the statement runs. -/
def appvar_init_step (w data : Nat) (i : Nat) (a : List Nat) : List Nat :=
  a.set i ((a.getD i 0 + (data % 2 ^ w + 2 ^ w - a.getD 0 0 % 2 ^ w) % 2 ^ w) % 2 ^ w)

/-- The emitted loop `for (i = 0; i < <a_name>_num; i++) ...`, where
`<a_name>_num` is the number of entries of the table. -/
def appvar_init_loop (w data : Nat) (a : List Nat) : List Nat :=
  forUpTo (appvar_init_step w data) a.length a

/-- The emitted routine `<a_name>_init`: `appvar` is the handle returned by
`ti_Open` and `data` the address returned by `ti_GetDataPtr`; the result is
the table after the loop and the value of `(bool)appvar`. -/
def appvar_init (w appvar data : Nat) (a : List Nat) : List Nat × Bool :=
  (appvar_init_loop w data a, decide (appvar ≠ 0))

/-! ## Reading an emitted array initializer back -/

/-- The lexical classes of the characters of an initializer. -/
inductive CharClass where
  | digit (d : Nat)
  | hexLetter (d : Nat)
  | letterX
  | comma
  | rbrace
  | slash
  | newline
  | blank
  | lparen
  | rparen
  | other
deriving DecidableEq

/-- Lexical class of a character code: decimal digits, the hexadecimal
letters `A`-`F` and `a`-`f`, `x` or `X`, `,`, the closing brace, `/`, the line
end, blanks (space, tab, carriage return), `(` and `)`. -/
def classifyCode (n : Nat) : CharClass :=
  if 48 ≤ n ∧ n ≤ 57 then .digit (n - 48)
  else if 65 ≤ n ∧ n ≤ 70 then .hexLetter (n - 65 + 10)
  else if 97 ≤ n ∧ n ≤ 102 then .hexLetter (n - 97 + 10)
  else if n = 120 ∨ n = 88 then .letterX
  else if n = 44 then .comma
  else if n = 125 then .rbrace
  else if n = 47 then .slash
  else if n = 10 then .newline
  else if n = 32 ∨ n = 9 ∨ n = 13 then .blank
  else if n = 40 then .lparen
  else if n = 41 then .rparen
  else .other

/-- Lexical class of a character. -/
def classify (c : Char) : CharClass := classifyCode c.toNat

/-- Where the reader is inside an initializer. -/
inductive Mode where
  | idle
  | slash
  | comment
  | cast
  | zero
  | hexStart
  | hex (v : Nat)
  | dec (v : Nat)
  | done
  | err
deriving DecidableEq

/-- Reader state: the mode and the elements read so far, in order. -/
structure Scan where
  mode : Mode
  elems : List Nat
deriving DecidableEq

/-- One character of an initializer. Elements are decimal numbers without a
leading zero or `0x` hexadecimal numbers, each ended by `,` or by the closing
brace; blanks, line ends, `//` comments and parenthesised casts are skipped;
everything after the closing brace is ignored. -/
def scanStep (s : Scan) (c : Char) : Scan :=
  match s.mode with
  | .idle =>
    match classify c with
    | .blank => s
    | .newline => s
    | .slash => { s with mode := .slash }
    | .lparen => { s with mode := .cast }
    | .digit d => if d = 0 then { s with mode := .zero } else { s with mode := .dec d }
    | .rbrace => { s with mode := .done }
    | _ => { s with mode := .err }
  | .slash =>
    match classify c with
    | .slash => { s with mode := .comment }
    | _ => { s with mode := .err }
  | .comment =>
    match classify c with
    | .newline => { s with mode := .idle }
    | _ => s
  | .cast =>
    match classify c with
    | .rparen => { s with mode := .idle }
    | _ => s
  | .zero =>
    match classify c with
    | .letterX => { s with mode := .hexStart }
    | .comma => { mode := .idle, elems := s.elems ++ [0] }
    | .rbrace => { mode := .done, elems := s.elems ++ [0] }
    | _ => { s with mode := .err }
  | .hexStart =>
    match classify c with
    | .digit d => { s with mode := .hex d }
    | .hexLetter d => { s with mode := .hex d }
    | _ => { s with mode := .err }
  | .hex v =>
    match classify c with
    | .digit d => { s with mode := .hex (16 * v + d) }
    | .hexLetter d => { s with mode := .hex (16 * v + d) }
    | .comma => { mode := .idle, elems := s.elems ++ [v] }
    | .rbrace => { mode := .done, elems := s.elems ++ [v] }
    | _ => { s with mode := .err }
  | .dec v =>
    match classify c with
    | .digit d => { s with mode := .dec (10 * v + d) }
    | .comma => { mode := .idle, elems := s.elems ++ [v] }
    | .rbrace => { mode := .done, elems := s.elems ++ [v] }
    | _ => { s with mode := .err }
  | .done => s
  | .err => s

/-- Reading a text from a given reader state. -/
def scanFrom (s : Scan) (t : Text) : Scan := t.foldl scanStep s

/-- The elements of a closed initializer: `t` is the text after the opening
brace; the result is `none` unless `t` is well formed up to its closing brace. -/
def arrayElements (t : Text) : Option (List Nat) :=
  match (scanFrom ⟨.idle, []⟩ t).mode with
  | .done => some (scanFrom ⟨.idle, []⟩ t).elems
  | _ => none

/-- The elements of an initializer that is still open: `t` is the text after
the opening brace and must end between two elements. -/
def openArrayElements (t : Text) : Option (List Nat) :=
  match (scanFrom ⟨.idle, []⟩ t).mode with
  | .idle => some (scanFrom ⟨.idle, []⟩ t).elems
  | _ => none

/-! ## Call sequences of the driver -/

/-- A call made while an image or tile array is open. -/
inductive ArrayCall where
  | byte (b : Nat) (need_comma : Bool)
  | next_line
deriving DecidableEq

/-- The backend call an `ArrayCall` stands for: `c_print_byte` or
`c_print_next_array_line(out, false)`. -/
def ArrayCall.run (out : output_t) : ArrayCall → output_t
  | .byte b need_comma => c_print_byte out b need_comma
  | .next_line => c_print_next_array_line out false

/-- The calls in order. -/
def runArrayCalls (out : output_t) (calls : List ArrayCall) : output_t :=
  calls.foldl ArrayCall.run out

/-- The bytes passed to `c_print_byte`, in call order. -/
def ArrayCall.bytes : List ArrayCall → List Nat
  | [] => []
  | .byte b _ :: cs => b :: ArrayCall.bytes cs
  | .next_line :: cs => ArrayCall.bytes cs

/-- A member added to an appvar array. -/
inductive AppvarMember where
  | image (offset : Nat) (i_name : Text) (index : Nat) (compressed tp_style : Bool)
  | palette (offset : Nat)
deriving DecidableEq

/-- The backend call for a member: `c_print_appvar_image` or
`c_print_appvar_palette`. -/
def AppvarMember.run (a_name : Text) (out : output_t) : AppvarMember → output_t
  | .image offset i_name index compressed tp_style =>
    c_print_appvar_image out a_name offset i_name index compressed tp_style
  | .palette offset => c_print_appvar_palette out offset

/-- The offset passed with a member. -/
def AppvarMember.offset : AppvarMember → Nat
  | .image offset _ _ _ _ => offset
  | .palette offset => offset

/-- The member calls in order. -/
def runAppvarMembers (a_name : Text) (out : output_t) (ms : List AppvarMember) : output_t :=
  ms.foldl (AppvarMember.run a_name) out

/-! ## Statement vocabulary -/

/-- The entry line of a palette literal for index `j`, colour `e` and packed
value `v`: the value as four hexadecimal digits, then a comment with the index
and the four channels. -/
def paletteLine (v j : Nat) (e : liq_color) : Text :=
  " 0x".toList ++ fmt_04X v ++ ",  // ".toList ++ fmt_02u j ++ " :: rgba(".toList ++
    fmt_u e.r ++ ",".toList ++ fmt_u e.g ++ ",".toList ++ fmt_u e.b ++ ",".toList ++
    fmt_u e.a ++ ")\n".toList

/-- The entry lines of a palette literal, one per index below `n`. -/
def paletteLines (rgb1555 : Nat → Nat → Nat → Nat) (pal : liq_palette) (n : Nat) : List Text :=
  (List.range n).map fun j =>
    paletteLine (rgb1555 (pal.entry j).r (pal.entry j).g (pal.entry j).b) j (pal.entry j)

/-- Modelled from the spec: the colour packer `rgb1555`, which `c_format.c`
calls and `misc.h` declares. The spec gives it as
`(r>>3)<<11 | (g>>3)<<6 | (b>>3)<<1 | controlBit`; the control bit is a one-bit
flag the spec does not define, so it is the argument `controlBit`, a function
of the three channels the call site passes. -/
def rgb1555 (controlBit : Nat → Nat → Nat → Nat) (r g b : Nat) : Nat :=
  (r >>> 3) <<< 11 ||| (g >>> 3) <<< 6 ||| (b >>> 3) <<< 1 ||| controlBit r g b

/-- The two-entry palette of the spec's scenario: red at full alpha, green
at alpha 0. -/
def scenarioPalette : liq_palette :=
  { count := 2, entries := [⟨255, 0, 0, 255⟩, ⟨0, 255, 0, 0⟩] }

/-- The scenario image's calls: 64 pixel bytes, a line break after every
eighth byte. -/
def scenarioCalls : List ArrayCall :=
  (List.range 64).flatMap fun i =>
    if i % 8 = 7 then [ArrayCall.byte (3 * i) true, ArrayCall.next_line]
    else [ArrayCall.byte (3 * i) true]

/-- The symbol of tile `tile_num` of an image: `<i_name>_tile_<tile_num>_data`
or `<i_name>_tile_<tile_num>_compressed`. -/
def tileSymbol (i_name : Text) (tile_num : Nat) (compressed : Bool) : Text :=
  i_name ++ "_tile_".toList ++ fmt_u tile_num ++
    (if compressed then "_compressed".toList else "_data".toList)

/-- An `extern` array declaration: element type, identifier and, when
declared, the array size. -/
def externDecl (ty ident : Text) (size : Option Nat) : Text :=
  "extern ".toList ++ ty ++ ident ++ "[".toList ++
    (match size with
      | some n => fmt_u n
      | none => []) ++ "];\n".toList

/-- The head of an array definition, up to the opening brace: element type,
identifier and array size. -/
def definitionOpen (ty ident : Text) (size : Nat) : Text :=
  ty ++ ident ++ "[".toList ++ fmt_u size ++ "] = \x7b".toList

/-- An alias macro line `#define <name> ((<ty>*)<target>)`. -/
def aliasMacro (name ty target : Text) : Text :=
  "#define ".toList ++ name ++ " ((".toList ++ ty ++ "*)".toList ++ target ++ ")\n".toList

/-- The value of a decimal numeral: `none` unless the text is a non-empty run
of decimal digits. -/
def decimalValue (t : Text) : Option Nat :=
  match t with
  | [] => none
  | _ =>
    t.foldl (fun acc c =>
      match acc, classify c with
      | some v, .digit d => some (10 * v + d)
      | _, _ => none) (some 0)

/-- The line `#define sizeof_<name>_pal <value>`. -/
def sizeofLine (name : Text) (value : Nat) : Text :=
  "#define sizeof_".toList ++ name ++ "_pal ".toList ++ fmt_u value ++ "\n".toList

/-- The part of a palette entry line before the alpha channel: the packed
value `v`, the index `j` and the channels r, g, b. -/
def paletteLineHead (v j r g b : Nat) : Text :=
  " 0x".toList ++ fmt_04X v ++ ",  // ".toList ++ fmt_02u j ++ " :: rgba(".toList ++
    fmt_u r ++ ",".toList ++ fmt_u g ++ ",".toList ++ fmt_u b ++ ",".toList

/-- The scenario palette with every alpha set to 255. -/
def scenarioPaletteOpaque : liq_palette :=
  { count := 2, entries := [⟨255, 0, 0, 255⟩, ⟨0, 255, 0, 255⟩] }

/-- The characters of a C identifier: letters, digits and `_`. -/
def isIdentChar (c : Char) : Bool := c.isAlphanum || c == '_'

/-- A C identifier: a non-empty run of identifier characters that does not
start with a digit. -/
def isIdentifier (t : Text) : Bool :=
  match t with
  | [] => false
  | c :: _ => !c.isDigit && t.all isIdentChar

/-- The lines of a text, `cur` being the part of the current line already
read: every line end closes a line, and text after the last line end is a
last line. -/
def linesAux (cur : Text) : Text → List Text
  | [] => if cur = [] then [] else [cur]
  | c :: t => if c = '\n' then cur :: linesAux [] t else linesAux (cur ++ [c]) t

/-- The lines of a text, without their line ends. -/
def linesOf (t : Text) : List Text := linesAux [] t

/-- The preprocessor directives of a text: its lines that begin with `#`. -/
def directives (t : Text) : List Text :=
  (linesOf t).filter fun l => "#".toList.isPrefixOf l

/-- The text made of the given lines, each followed by a line end. -/
def joinLines (ls : List Text) : Text := (ls.map fun l => l ++ "\n".toList).flatten

/-- A line without a line end that begins neither with `#if` (so neither
with `#ifdef` nor `#ifndef`) nor with `#endif`. -/
def PlainLine (l : Text) : Prop :=
  l.count '\n' = 0 ∧ "#if".toList.isPrefixOf l = false ∧ "#endif".toList.isPrefixOf l = false

/-- A text made of complete plain lines. -/
def LineBlock (t : Text) : Prop := ∃ ls : List Text, t = joinLines ls ∧ ∀ l ∈ ls, PlainLine l

/-- A call of an operation that writes declarations, made between the header
prologue and its epilogue. -/
inductive HeaderCall where
  | transparent_index (group_name : Text) (index : Nat)
  | tiles_header (i_name : Text) (num_tiles : Nat) (compressed : Bool)
  | tiles_ptrs_header (i_name : Text) (num_tiles : Nat) (compressed : Bool)
  | image_header (i_name : Text) (size : Nat) (compressed : Bool)
  | transparent_image_header (i_name : Text) (size : Nat) (compressed : Bool)
  | palette_header (name : Text) (len : Nat)
  | appvar_array (a_name : Text) (num_images : Nat)
  | appvar_image (a_name : Text) (offset : Nat) (i_name : Text) (index : Nat)
      (compressed tp_style : Bool)
  | appvar_load_function (a_name : Text)
  | appvar_palette_header (p_name a_name : Text) (index len : Nat)
deriving DecidableEq

/-- The backend call a `HeaderCall` stands for. -/
def HeaderCall.run (out : output_t) : HeaderCall → output_t
  | .transparent_index group_name index => c_print_transparent_index out group_name index
  | .tiles_header i_name num_tiles compressed =>
    c_print_tiles_header out i_name num_tiles compressed
  | .tiles_ptrs_header i_name num_tiles compressed =>
    c_print_tiles_ptrs_header out i_name num_tiles compressed
  | .image_header i_name size compressed => c_print_image_header out i_name size compressed
  | .transparent_image_header i_name size compressed =>
    c_print_transparent_image_header out i_name size compressed
  | .palette_header name len => c_print_palette_header out name len
  | .appvar_array a_name num_images => c_print_appvar_array out a_name num_images
  | .appvar_image a_name offset i_name index compressed tp_style =>
    c_print_appvar_image out a_name offset i_name index compressed tp_style
  | .appvar_load_function a_name => c_print_appvar_load_function out a_name
  | .appvar_palette_header p_name a_name index len =>
    c_print_appvar_palette_header out p_name a_name index len

/-- The names passed with a call. -/
def HeaderCall.names : HeaderCall → List Text
  | .transparent_index group_name _ => [group_name]
  | .tiles_header i_name _ _ => [i_name]
  | .tiles_ptrs_header i_name _ _ => [i_name]
  | .image_header i_name _ _ => [i_name]
  | .transparent_image_header i_name _ _ => [i_name]
  | .palette_header name _ => [name]
  | .appvar_array a_name _ => [a_name]
  | .appvar_image a_name _ i_name _ _ _ => [a_name, i_name]
  | .appvar_load_function a_name => [a_name]
  | .appvar_palette_header p_name a_name _ _ => [p_name, a_name]

/-- The calls in order. -/
def runHeaderCalls (out : output_t) (calls : List HeaderCall) : output_t :=
  calls.foldl HeaderCall.run out

/-- A sample header body: a palette with its transparent index, an image, a
compressed image, tiles with their pointer table and an appvar with one image,
one palette and its loader. -/
def scenarioHeaderCalls : List HeaderCall :=
  [.palette_header "gfx".toList 2, .transparent_index "gfx".toList 1,
    .image_header "img".toList 66 false, .transparent_image_header "spr".toList 66 true,
    .tiles_header "map".toList 2 false, .tiles_ptrs_header "map".toList 2 false,
    .appvar_array "av".toList 2, .appvar_image "av".toList 0 "img".toList 0 false true,
    .appvar_palette_header "gfx".toList "av".toList 1 2, .appvar_load_function "av".toList]

/-- The lines of the header prologue for a group name. -/
def prologueLines (group_name : Text) : List Text :=
  ["// Converted using ConvPNG".toList,
    "// This file contains all the graphics sources for easier inclusion in a project".toList,
    "#ifndef __".toList ++ group_name ++ "__".toList,
    "#define __".toList ++ group_name ++ "__".toList,
    "#include <stdint.h>".toList, []]

/-! ## Basic facts: streams and loops -/

@[simp] theorem fprintf_c_streams (tc th s : Text) :
    fprintf_c (streams tc th) s = streams (tc ++ s) th := by
  simp [fprintf_c, streams, fprintf]

@[simp] theorem fprintf_h_streams (tc th s : Text) :
    fprintf_h (streams tc th) s = streams tc (th ++ s) := by
  simp [fprintf_h, streams, fprintf]

theorem forUpTo_fprintf_c (f : Nat → Text) (n : Nat) (tc th : Text) :
    forUpTo (fun i out => fprintf_c out (f i)) n (streams tc th)
      = streams (tc ++ ((List.range n).map f).flatten) th := by
  induction n with
  | zero => simp [forUpTo]
  | succ n ih => simp [forUpTo, ih, List.range_succ]

theorem forUpTo_fprintf_h (f : Nat → Text) (n : Nat) (tc th : Text) :
    forUpTo (fun i out => fprintf_h out (f i)) n (streams tc th)
      = streams tc (th ++ ((List.range n).map f).flatten) := by
  induction n with
  | zero => simp [forUpTo]
  | succ n ih => simp [forUpTo, ih, List.range_succ]

/-! ## Basic facts: number formatting -/

theorem fmtNatAux_fuel (b : Nat) (hb : 2 ≤ b) :
    ∀ (f1 f2 n : Nat), n ≤ f1 → n ≤ f2 → fmtNatAux b f1 n = fmtNatAux b f2 n := by
  intro f1
  induction f1 with
  | zero =>
    intro f2 n h1 _
    have hn : n = 0 := by omega
    subst hn
    cases f2 with
    | zero => rfl
    | succ f2 =>
      have h0 : (0 : Nat) < b := by omega
      simp [fmtNatAux, h0, Nat.zero_mod]
  | succ f1 ih =>
    intro f2 n h1 h2
    by_cases hlt : n < b
    · cases f2 with
      | zero =>
        have hn : n = 0 := by omega
        subst hn
        simp [fmtNatAux, hlt, Nat.zero_mod]
      | succ f2 => simp [fmtNatAux, hlt]
    · have hdiv : n / b < n := Nat.div_lt_self (by omega) (by omega)
      cases f2 with
      | zero => omega
      | succ f2 =>
        simp only [fmtNatAux, hlt, if_false]
        rw [ih f2 (n / b) (by omega) (by omega)]

theorem fmtNat_lt (b n : Nat) (h : n < b) : fmtNat b n = [digitChar n] := by
  unfold fmtNat
  cases n with
  | zero => simp [fmtNatAux, Nat.zero_mod]
  | succ n => simp [fmtNatAux, h]

theorem fmtNat_ge (b n : Nat) (hb : 2 ≤ b) (h : b ≤ n) :
    fmtNat b n = fmtNat b (n / b) ++ [digitChar (n % b)] := by
  unfold fmtNat
  cases n with
  | zero => omega
  | succ k =>
    have hlt : ¬ (k + 1 < b) := by omega
    have hdiv : (k + 1) / b < k + 1 := Nat.div_lt_self (by omega) (by omega)
    simp only [fmtNatAux, hlt, if_false]
    rw [fmtNatAux_fuel b hb k ((k + 1) / b) ((k + 1) / b) (by omega) (Nat.le_refl _)]

/-- Every character of a rendered number is a digit character below the base. -/
theorem fmtNat_mem (b : Nat) (hb : 2 ≤ b) (n : Nat) :
    ∀ c ∈ fmtNat b n, ∃ d, d < b ∧ c = digitChar d := by
  induction n using Nat.strong_induction_on with
  | _ n ih =>
    intro c hc
    by_cases h : n < b
    · rw [fmtNat_lt b n h] at hc
      simp only [List.mem_singleton] at hc
      exact ⟨n, h, hc⟩
    · rw [fmtNat_ge b n hb (by omega)] at hc
      rcases List.mem_append.mp hc with hc | hc
      · exact ih (n / b) (Nat.div_lt_self (by omega) (by omega)) c hc
      · simp only [List.mem_singleton] at hc
        exact ⟨n % b, Nat.mod_lt _ (by omega), hc⟩

theorem digitChar_ne_newline : ∀ d, d < 16 → digitChar d ≠ '\n' := by decide

theorem fmtNat_count_newline (b : Nat) (hb : 2 ≤ b) (hb16 : b ≤ 16) (n : Nat) :
    (fmtNat b n).count '\n' = 0 := by
  rw [List.count_eq_zero]
  intro hmem
  obtain ⟨d, hd, hc⟩ := fmtNat_mem b hb n _ hmem
  exact digitChar_ne_newline d (by omega) hc.symm

theorem zeroPad_count_newline (w : Nat) (s : Text) (h : s.count '\n' = 0) :
    (zeroPad w s).count '\n' = 0 := by
  simp [zeroPad, List.count_append, h, List.count_replicate]

theorem paletteLine_newlines (v j : Nat) (e : liq_color) :
    (paletteLine v j e).count '\n' = 1 ∧ (paletteLine v j e).getLast? = some '\n' := by
  constructor
  · simp [paletteLine, fmt_04X, fmt_02u, fmt_u, List.count_append,
      zeroPad_count_newline, fmtNat_count_newline, List.count_cons]
  · have h : paletteLine v j e =
        (" 0x".toList ++ fmt_04X v ++ ",  // ".toList ++ fmt_02u j ++ " :: rgba(".toList ++
          fmt_u e.r ++ ",".toList ++ fmt_u e.g ++ ",".toList ++ fmt_u e.b ++ ",".toList ++
          fmt_u e.a ++ [')']) ++ ['\n'] := by
      simp [paletteLine]
    rw [h, List.getLast?_append]
    simp

/-! ## Palette emission -/

theorem c_print_palette_eq (rgb1555 : Nat → Nat → Nat → Nat) (tc th group_name : Text)
    (pal : liq_palette) (pal_len : Nat) :
    c_print_palette rgb1555 (streams tc th) group_name pal pal_len
      = streams (tc ++ ("uint16_t ".toList ++ group_name ++ "_pal[".toList ++ fmt_u pal_len ++
          "] = \x7b\n".toList) ++ (paletteLines rgb1555 pal pal_len).flatten ++ "\x7d;".toList)
          th := by
  unfold c_print_palette
  simp only [fprintf_c_streams]
  rw [forUpTo_fprintf_c]
  simp only [fprintf_c_streams, paletteLines, paletteLine]

theorem paletteLines_getElem? (rgb1555 : Nat → Nat → Nat → Nat) (pal : liq_palette)
    (n j : Nat) (hj : j < n) (hn : n ≤ pal.entries.length) :
    ∃ e, pal.entries[j]? = some e ∧
      (paletteLines rgb1555 pal n)[j]? = some (paletteLine (rgb1555 e.r e.g e.b) j e) := by
  have hjl : j < pal.entries.length := by omega
  refine ⟨pal.entries[j], List.getElem?_eq_getElem hjl, ?_⟩
  have he : pal.entry j = pal.entries[j] := by
    simp [liq_palette.entry, List.getD_eq_getElem?_getD, List.getElem?_eq_getElem hjl]
  simp [paletteLines, List.getElem?_map, List.getElem?_range hj, he]

/-- Claim C1. For every packer, group name and palette whose entry array
holds at least `pal_len` entries, `c_print_palette` appends to the definition
stream the opener `uint16_t <name>_pal[<pal_len>] = {`, then exactly `pal_len`
entry lines in index order 0..pal_len-1, then `};`. Line `j` is the packed
value of entry `j` in hexadecimal followed by a comment with `j` and the
entry's r, g, b, a; each line holds one line end, its last character. The
declaration stream is unchanged. -/
theorem c_print_palette_entry_lines (rgb1555 : Nat → Nat → Nat → Nat)
    (tc th group_name : Text) (pal : liq_palette) (pal_len : Nat)
    (hlen : pal_len ≤ pal.entries.length) :
    c_print_palette rgb1555 (streams tc th) group_name pal pal_len
        = streams (tc ++ ("uint16_t ".toList ++ group_name ++ "_pal[".toList ++
            fmt_u pal_len ++ "] = \x7b\n".toList) ++
            (paletteLines rgb1555 pal pal_len).flatten ++ "\x7d;".toList) th
      ∧ (paletteLines rgb1555 pal pal_len).length = pal_len
      ∧ (∀ j, j < pal_len → ∃ e, pal.entries[j]? = some e ∧
          (paletteLines rgb1555 pal pal_len)[j]?
            = some (paletteLine (rgb1555 e.r e.g e.b) j e))
      ∧ (∀ l ∈ paletteLines rgb1555 pal pal_len,
          l.count '\n' = 1 ∧ l.getLast? = some '\n') := by
  refine ⟨c_print_palette_eq rgb1555 tc th group_name pal pal_len, ?_, ?_, ?_⟩
  · simp [paletteLines]
  · intro j hj
    exact paletteLines_getElem? rgb1555 pal pal_len j hj hlen
  · intro l hl
    simp only [paletteLines, List.mem_map] at hl
    obtain ⟨j, _, rfl⟩ := hl
    exact paletteLine_newlines _ _ _

/-! ## Basic facts: the initializer reader -/

theorem scanFrom_append (s : Scan) (t u : Text) :
    scanFrom s (t ++ u) = scanFrom (scanFrom s t) u := by
  simp [scanFrom, List.foldl_append]

theorem scanFrom_cons (s : Scan) (c : Char) (t : Text) :
    scanFrom s (c :: t) = scanFrom (scanStep s c) t := rfl

theorem scanFrom_nil (s : Scan) : scanFrom s [] = s := rfl

theorem classify_digitChar :
    ∀ d, d < 16 → classify (digitChar d) = if d < 10 then .digit d else .hexLetter d := by
  decide

theorem classifyCode_newline (n : Nat) (h : classifyCode n = .newline) : n = 10 := by
  unfold classifyCode at h
  by_cases h1 : 48 ≤ n ∧ n ≤ 57
  · rw [if_pos h1] at h; cases h
  rw [if_neg h1] at h
  by_cases h2 : 65 ≤ n ∧ n ≤ 70
  · rw [if_pos h2] at h; cases h
  rw [if_neg h2] at h
  by_cases h3 : 97 ≤ n ∧ n ≤ 102
  · rw [if_pos h3] at h; cases h
  rw [if_neg h3] at h
  by_cases h4 : n = 120 ∨ n = 88
  · rw [if_pos h4] at h; cases h
  rw [if_neg h4] at h
  by_cases h5 : n = 44
  · rw [if_pos h5] at h; cases h
  rw [if_neg h5] at h
  by_cases h6 : n = 125
  · rw [if_pos h6] at h; cases h
  rw [if_neg h6] at h
  by_cases h7 : n = 47
  · rw [if_pos h7] at h; cases h
  rw [if_neg h7] at h
  by_cases h8 : n = 10
  · exact h8
  rw [if_neg h8] at h
  by_cases h9 : n = 32 ∨ n = 9 ∨ n = 13
  · rw [if_pos h9] at h; cases h
  rw [if_neg h9] at h
  by_cases h10 : n = 40
  · rw [if_pos h10] at h; cases h
  rw [if_neg h10] at h
  by_cases h11 : n = 41
  · rw [if_pos h11] at h; cases h
  rw [if_neg h11] at h
  cases h

theorem classify_newline (c : Char) (h : classify c = .newline) : c = '\n' := by
  have h10 := classifyCode_newline c.toNat h
  rw [← Char.ofNat_toNat c, h10]

theorem scanStep_hexStart_digit (es : List Nat) (d : Nat) (hd : d < 16) :
    scanStep ⟨.hexStart, es⟩ (digitChar d) = ⟨.hex d, es⟩ := by
  have h := classify_digitChar d hd
  by_cases h10 : d < 10 <;> simp [scanStep, h, h10]

theorem scanStep_hex_digit (v : Nat) (es : List Nat) (d : Nat) (hd : d < 16) :
    scanStep ⟨.hex v, es⟩ (digitChar d) = ⟨.hex (16 * v + d), es⟩ := by
  have h := classify_digitChar d hd
  by_cases h10 : d < 10 <;> simp [scanStep, h, h10]

theorem scanStep_dec_digit (v : Nat) (es : List Nat) (d : Nat) (hd : d < 10) :
    scanStep ⟨.dec v, es⟩ (digitChar d) = ⟨.dec (10 * v + d), es⟩ := by
  have h := classify_digitChar d (by omega)
  simp [scanStep, h, hd]

theorem scanStep_idle_digit (es : List Nat) (d : Nat) (hd : d < 10) (h0 : d ≠ 0) :
    scanStep ⟨.idle, es⟩ (digitChar d) = ⟨.dec d, es⟩ := by
  have h := classify_digitChar d (by omega)
  simp [scanStep, h, hd, h0]

/-- Reading the hexadecimal digits of `v` after `0x`. -/
theorem scanFrom_hexStart_fmtNat (es : List Nat) (v : Nat) :
    scanFrom ⟨.hexStart, es⟩ (fmtNat 16 v) = ⟨.hex v, es⟩ := by
  induction v using Nat.strong_induction_on with
  | _ v ih =>
    by_cases h : v < 16
    · rw [fmtNat_lt 16 v h, scanFrom_cons, scanFrom_nil, scanStep_hexStart_digit es v h]
    · rw [fmtNat_ge 16 v (by omega) (by omega), scanFrom_append,
        ih (v / 16) (Nat.div_lt_self (by omega) (by omega)), scanFrom_cons, scanFrom_nil,
        scanStep_hex_digit _ _ _ (Nat.mod_lt _ (by omega))]
      congr 2
      omega

theorem scanFrom_hex0_fmtNat (es : List Nat) (v : Nat) :
    scanFrom ⟨.hex 0, es⟩ (fmtNat 16 v) = ⟨.hex v, es⟩ := by
  induction v using Nat.strong_induction_on with
  | _ v ih =>
    by_cases h : v < 16
    · rw [fmtNat_lt 16 v h, scanFrom_cons, scanFrom_nil, scanStep_hex_digit 0 es v h]
      simp
    · rw [fmtNat_ge 16 v (by omega) (by omega), scanFrom_append,
        ih (v / 16) (Nat.div_lt_self (by omega) (by omega)), scanFrom_cons, scanFrom_nil,
        scanStep_hex_digit _ _ _ (Nat.mod_lt _ (by omega))]
      congr 2
      omega

theorem scanFrom_hex0_zeros (es : List Nat) (k : Nat) :
    scanFrom ⟨.hex 0, es⟩ (List.replicate k '0') = ⟨.hex 0, es⟩ := by
  induction k with
  | zero => rfl
  | succ k ih =>
    rw [List.replicate_succ, scanFrom_cons]
    have h : scanStep ⟨.hex 0, es⟩ '0' = ⟨.hex 0, es⟩ := scanStep_hex_digit 0 es 0 (by omega)
    rw [h, ih]

/-- Reading a zero-padded hexadecimal number after `0x`. -/
theorem scanFrom_hexStart_zeroPad (es : List Nat) (w v : Nat) :
    scanFrom ⟨.hexStart, es⟩ (zeroPad w (fmtNat 16 v)) = ⟨.hex v, es⟩ := by
  unfold zeroPad
  cases hk : w - (fmtNat 16 v).length with
  | zero => simpa using scanFrom_hexStart_fmtNat es v
  | succ k =>
    rw [List.replicate_succ, List.cons_append, scanFrom_cons]
    have h : scanStep ⟨.hexStart, es⟩ '0' = ⟨.hex 0, es⟩ :=
      scanStep_hexStart_digit es 0 (by omega)
    rw [h, scanFrom_append, scanFrom_hex0_zeros, scanFrom_hex0_fmtNat]

/-- Reading a `0x` hexadecimal element and its comma. -/
theorem scanFrom_hex_element (es : List Nat) (w v : Nat) (t : Text) :
    scanFrom ⟨.idle, es⟩ ("0x".toList ++ zeroPad w (fmtNat 16 v) ++ ",".toList ++ t)
      = scanFrom ⟨.idle, es ++ [v]⟩ t := by
  have h0 : scanStep ⟨.idle, es⟩ '0' = ⟨.zero, es⟩ := by
    have h : classify '0' = .digit 0 := by decide
    simp [scanStep, h]
  have hx : scanStep ⟨.zero, es⟩ 'x' = ⟨.hexStart, es⟩ := by
    have h : classify 'x' = .letterX := by decide
    simp [scanStep, h]
  have hc : scanStep ⟨.hex v, es⟩ ',' = ⟨.idle, es ++ [v]⟩ := by
    have h : classify ',' = .comma := by decide
    simp [scanStep, h]
  have e : "0x".toList ++ zeroPad w (fmtNat 16 v) ++ ",".toList ++ t
      = '0' :: 'x' :: (zeroPad w (fmtNat 16 v) ++ (',' :: t)) := by simp
  rw [e, scanFrom_cons, h0, scanFrom_cons, hx, scanFrom_append, scanFrom_hexStart_zeroPad,
    scanFrom_cons, hc]

theorem scanFrom_idle_fmt_u (es : List Nat) (n : Nat) (hn : 0 < n) :
    scanFrom ⟨.idle, es⟩ (fmt_u n) = ⟨.dec n, es⟩ := by
  unfold fmt_u
  induction n using Nat.strong_induction_on with
  | _ n ih =>
    by_cases h : n < 10
    · rw [fmtNat_lt 10 n h, scanFrom_cons, scanFrom_nil,
        scanStep_idle_digit es n h (by omega)]
    · rw [fmtNat_ge 10 n (by omega) (by omega), scanFrom_append,
        ih (n / 10) (Nat.div_lt_self (by omega) (by omega)) (Nat.div_pos (by omega) (by omega)),
        scanFrom_cons, scanFrom_nil, scanStep_dec_digit _ _ _ (Nat.mod_lt _ (by omega))]
      congr 2
      omega

/-- Reading a decimal element and its comma. -/
theorem scanFrom_dec_element (es : List Nat) (n : Nat) (t : Text) :
    scanFrom ⟨.idle, es⟩ (fmt_u n ++ ",".toList ++ t) = scanFrom ⟨.idle, es ++ [n]⟩ t := by
  have hcomma : classify ',' = .comma := by decide
  rw [List.append_assoc, scanFrom_append]
  rcases Nat.eq_zero_or_pos n with h0 | hpos
  · subst h0
    have h : scanFrom ⟨.idle, es⟩ (fmt_u 0) = ⟨.zero, es⟩ := by
      have hz : classify '0' = .digit 0 := by decide
      have e : fmt_u 0 = ['0'] := by decide
      rw [e, scanFrom_cons, scanFrom_nil]
      simp [scanStep, hz]
    rw [h]
    have e : ",".toList ++ t = ',' :: t := by simp
    rw [e, scanFrom_cons]
    simp [scanStep, hcomma]
  · rw [scanFrom_idle_fmt_u es n hpos]
    have e : ",".toList ++ t = ',' :: t := by simp
    rw [e, scanFrom_cons]
    simp [scanStep, hcomma]

/-- A comment body without a line end is skipped. -/
theorem scanFrom_comment (es : List Nat) (t : Text) (h : t.count '\n' = 0) :
    scanFrom ⟨.comment, es⟩ t = ⟨.comment, es⟩ := by
  induction t with
  | nil => rfl
  | cons c t ih =>
    have hc : c ≠ '\n' := by
      intro hc
      subst hc
      simp at h
    have ht : t.count '\n' = 0 := by
      rw [List.count_cons] at h
      omega
    have hs : scanStep ⟨.comment, es⟩ c = ⟨.comment, es⟩ := by
      have hn : classify c ≠ .newline := fun hcl => hc (classify_newline c hcl)
      unfold scanStep
      simp only
    rw [scanFrom_cons, hs, ih ht]

theorem scanStep_idle_blank (es : List Nat) (c : Char)
    (h : classify c = .blank ∨ classify c = .newline) :
    scanStep ⟨.idle, es⟩ c = ⟨.idle, es⟩ := by
  rcases h with h | h <;> simp [scanStep, h]

/-- A `//` comment up to its line end is skipped. -/
theorem scanFrom_line_comment (es : List Nat) (body t : Text) (h : body.count '\n' = 0) :
    scanFrom ⟨.idle, es⟩ ("//".toList ++ body ++ "\n".toList ++ t) = scanFrom ⟨.idle, es⟩ t := by
  have hs : classify '/' = .slash := by decide
  have hn : classify '\n' = .newline := by decide
  have e : "//".toList ++ body ++ "\n".toList ++ t = '/' :: '/' :: (body ++ ('\n' :: t)) := by
    simp
  have s1 : scanStep ⟨.idle, es⟩ '/' = ⟨.slash, es⟩ := by simp [scanStep, hs]
  have s2 : scanStep ⟨.slash, es⟩ '/' = ⟨.comment, es⟩ := by simp [scanStep, hs]
  have s3 : scanStep ⟨.comment, es⟩ '\n' = ⟨.idle, es⟩ := by simp [scanStep, hn]
  rw [e, scanFrom_cons, s1, scanFrom_cons, s2, scanFrom_append, scanFrom_comment es body h,
    scanFrom_cons, s3]

theorem paletteComment_count (j : Nat) (e : liq_color) :
    (" ".toList ++ fmt_02u j ++ " :: rgba(".toList ++ fmt_u e.r ++ ",".toList ++ fmt_u e.g ++
      ",".toList ++ fmt_u e.b ++ ",".toList ++ fmt_u e.a ++ ")".toList).count '\n' = 0 := by
  simp [fmt_02u, fmt_u, List.count_append, zeroPad_count_newline, fmtNat_count_newline,
    List.count_cons]

/-- Reading one palette entry line yields its packed value. -/
theorem scanFrom_paletteLine (es : List Nat) (v j : Nat) (e : liq_color) (t : Text) :
    scanFrom ⟨.idle, es⟩ (paletteLine v j e ++ t) = scanFrom ⟨.idle, es ++ [v]⟩ t := by
  have hb : classify ' ' = .blank := by decide
  have e1 : paletteLine v j e ++ t
      = ' ' :: ("0x".toList ++ zeroPad 4 (fmtNat 16 v) ++ ",".toList ++
          (' ' :: ' ' :: ("//".toList ++
            (" ".toList ++ fmt_02u j ++ " :: rgba(".toList ++ fmt_u e.r ++ ",".toList ++
              fmt_u e.g ++ ",".toList ++ fmt_u e.b ++ ",".toList ++ fmt_u e.a ++ ")".toList) ++
            "\n".toList ++ t))) := by
    simp [paletteLine, fmt_04X]
  rw [e1, scanFrom_cons, scanStep_idle_blank es ' ' (Or.inl hb), scanFrom_hex_element,
    scanFrom_cons, scanStep_idle_blank _ ' ' (Or.inl hb),
    scanFrom_cons, scanStep_idle_blank _ ' ' (Or.inl hb),
    scanFrom_line_comment _ _ _ (paletteComment_count j e)]

theorem scanFrom_paletteLines (rgb1555 : Nat → Nat → Nat → Nat) (pal : liq_palette)
    (l : List Nat) (es : List Nat) (t : Text) :
    scanFrom ⟨.idle, es⟩ ((l.map fun j =>
        paletteLine (rgb1555 (pal.entry j).r (pal.entry j).g (pal.entry j).b) j
          (pal.entry j)).flatten ++ t)
      = scanFrom ⟨.idle, es ++ l.map fun j =>
          rgb1555 (pal.entry j).r (pal.entry j).g (pal.entry j).b⟩ t := by
  induction l generalizing es with
  | nil => simp
  | cons j l ih =>
    rw [List.map_cons, List.flatten_cons, List.append_assoc, scanFrom_paletteLine, ih]
    simp

theorem range_map_entry (pal : liq_palette) (n : Nat) (hn : n ≤ pal.entries.length)
    (f : liq_color → Nat) :
    (List.range n).map (fun j => f (pal.entry j)) = (pal.entries.take n).map f := by
  apply List.ext_getElem?
  intro i
  by_cases hi : i < n
  · have hil : i < pal.entries.length := by omega
    simp [List.getElem?_map, List.getElem?_range hi, List.getElem?_take, hi,
      liq_palette.entry, List.getD_eq_getElem?_getD, List.getElem?_eq_getElem hil]
  · have h1 : ((List.range n).map (fun j => f (pal.entry j)))[i]? = none := by
      apply List.getElem?_eq_none
      simp
      omega
    have h2 : ((pal.entries.take n).map f)[i]? = none := by
      apply List.getElem?_eq_none
      simp
      omega
    rw [h1, h2]

theorem arrayElements_of_scan (t : Text) (es : List Nat)
    (h : scanFrom ⟨.idle, []⟩ t = ⟨.done, es⟩) : arrayElements t = some es := by
  unfold arrayElements
  rw [h]

theorem openArrayElements_of_scan (t : Text) (es : List Nat)
    (h : scanFrom ⟨.idle, []⟩ t = ⟨.idle, es⟩) : openArrayElements t = some es := by
  unfold openArrayElements
  rw [h]

/-- The body of a palette literal reads back as the packed values. -/
theorem arrayElements_palette (rgb1555 : Nat → Nat → Nat → Nat) (pal : liq_palette) (n : Nat) :
    arrayElements ("\n".toList ++ (paletteLines rgb1555 pal n).flatten ++ "\x7d;".toList)
      = some ((List.range n).map fun j =>
          rgb1555 (pal.entry j).r (pal.entry j).g (pal.entry j).b) := by
  have hn : classify '\n' = .newline := by decide
  have hr : classify '\x7d' = .rbrace := by decide
  have e : "\n".toList ++ (paletteLines rgb1555 pal n).flatten ++ "\x7d;".toList
      = '\n' :: ((paletteLines rgb1555 pal n).flatten ++ ['\x7d', ';']) := by simp
  have hscan : scanFrom ⟨.idle, []⟩
      ("\n".toList ++ (paletteLines rgb1555 pal n).flatten ++ "\x7d;".toList)
      = ⟨.done, (List.range n).map fun j =>
          rgb1555 (pal.entry j).r (pal.entry j).g (pal.entry j).b⟩ := by
    rw [e, scanFrom_cons, scanStep_idle_blank _ _ (Or.inr hn)]
    unfold paletteLines
    rw [scanFrom_paletteLines, scanFrom_cons, scanFrom_cons, scanFrom_nil]
    simp [scanStep, hr]
  exact arrayElements_of_scan _ _ hscan

/-- A value below 2^16 is rendered by `%04X` as exactly four digits. -/
theorem fmt_04X_digits (v : Nat) (hv : v < 65536) :
    fmt_04X v = [digitChar (v / 4096), digitChar (v / 256 % 16), digitChar (v / 16 % 16),
      digitChar (v % 16)] := by
  have hz : digitChar 0 = '0' := by decide
  unfold fmt_04X
  by_cases h1 : v < 16
  · have a1 : v / 4096 = 0 := by omega
    have a2 : v / 256 % 16 = 0 := by omega
    have a3 : v / 16 % 16 = 0 := by omega
    have a4 : v % 16 = v := by omega
    rw [fmtNat_lt 16 v h1, a1, a2, a3, a4, hz]
    rfl
  · by_cases h2 : v < 256
    · have a1 : v / 4096 = 0 := by omega
      have a2 : v / 256 % 16 = 0 := by omega
      have a3 : v / 16 % 16 = v / 16 := by omega
      rw [fmtNat_ge 16 v (by omega) (by omega), fmtNat_lt 16 (v / 16) (by omega), a1, a2, a3,
        hz]
      rfl
    · by_cases h3 : v < 4096
      · have a1 : v / 4096 = 0 := by omega
        have a2 : v / 256 % 16 = v / 16 / 16 := by omega
        have a3 : v / 16 % 16 = v / 16 % 16 := rfl
        rw [fmtNat_ge 16 v (by omega) (by omega), fmtNat_ge 16 (v / 16) (by omega) (by omega),
          fmtNat_lt 16 (v / 16 / 16) (by omega), a1, a2, hz]
        rfl
      · have a1 : v / 4096 = v / 16 / 16 / 16 := by omega
        have a2 : v / 256 % 16 = v / 16 / 16 % 16 := by omega
        rw [fmtNat_ge 16 v (by omega) (by omega), fmtNat_ge 16 (v / 16) (by omega) (by omega),
          fmtNat_ge 16 (v / 16 / 16) (by omega) (by omega),
          fmtNat_lt 16 (v / 16 / 16 / 16) (by omega), a1, a2]
        rfl

/-- Witness of C1: the scenario palette under the name `gfx`, control bit 1. -/
theorem c_print_palette_entry_lines_witness :
    2 ≤ scenarioPalette.entries.length ∧
    c_print_palette (rgb1555 fun _ _ _ => 1) (streams [] []) "gfx".toList scenarioPalette 2
      = streams ("uint16_t gfx_pal[2] = \x7b\n".toList ++
          " 0xF801,  // 00 :: rgba(255,0,0,255)\n".toList ++
          " 0x07C1,  // 01 :: rgba(0,255,0,0)\n".toList ++ "\x7d;".toList) [] :=
  ⟨by decide,
    (c_print_palette_entry_lines (rgb1555 fun _ _ _ => 1) [] [] "gfx".toList scenarioPalette 2
      (by decide)).1.trans (by decide)⟩

/-- Claim C6. For every packer, name and palette whose entry array holds at
least `pal_len` entries, the text `c_print_palette` writes is the declaration
up to the opening brace followed by an initializer that reads back, comments
skipped, as exactly the packed values of entries 0..pal_len-1 in order, a list
of length `pal_len`. Every value below 2^16 is rendered by `0x%04X` as `0x`
and exactly four upper-case hexadecimal digits, and reads back as itself. -/
theorem c_print_palette_reparse (rgb1555 : Nat → Nat → Nat → Nat)
    (tc th group_name : Text) (pal : liq_palette) (pal_len : Nat)
    (hlen : pal_len ≤ pal.entries.length) :
    c_print_palette rgb1555 (streams tc th) group_name pal pal_len
        = streams (tc ++ ("uint16_t ".toList ++ group_name ++ "_pal[".toList ++
            fmt_u pal_len ++ "] = \x7b".toList) ++
            ("\n".toList ++ (paletteLines rgb1555 pal pal_len).flatten ++ "\x7d;".toList)) th
      ∧ arrayElements
          ("\n".toList ++ (paletteLines rgb1555 pal pal_len).flatten ++ "\x7d;".toList)
          = some ((pal.entries.take pal_len).map fun e => rgb1555 e.r e.g e.b)
      ∧ ((pal.entries.take pal_len).map fun e => rgb1555 e.r e.g e.b).length = pal_len
      ∧ (∀ v, v < 65536 →
          fmt_04X v = [digitChar (v / 4096), digitChar (v / 256 % 16),
            digitChar (v / 16 % 16), digitChar (v % 16)]
          ∧ arrayElements ("0x".toList ++ fmt_04X v ++ ",".toList ++ "\x7d".toList)
              = some [v]) := by
  refine ⟨?_, ?_, ?_, ?_⟩
  · rw [c_print_palette_eq]
    simp
  · rw [arrayElements_palette]
    exact congrArg some
      (range_map_entry pal pal_len hlen fun e => rgb1555 e.r e.g e.b)
  · simp [List.length_take, hlen]
  · intro v hv
    refine ⟨fmt_04X_digits v hv, ?_⟩
    apply arrayElements_of_scan
    have hr : classify '\x7d' = .rbrace := by decide
    unfold fmt_04X
    rw [scanFrom_hex_element]
    simp [scanFrom, scanStep, hr]

/-- Witness of C6: the scenario palette, control bit 0. -/
theorem c_print_palette_reparse_witness :
    2 ≤ scenarioPalette.entries.length ∧
    arrayElements ("\n".toList ++
        (paletteLines (rgb1555 fun _ _ _ => 0) scenarioPalette 2).flatten ++ "\x7d;".toList)
      = some [0xF800, 0x07C0] :=
  ⟨by decide,
    (c_print_palette_reparse (rgb1555 fun _ _ _ => 0) [] [] "gfx".toList scenarioPalette 2
      (by decide)).2.1.trans (by decide)⟩

/-! ## Colour packing -/

theorem lor_field (a x i : Nat) (hx : x < 2 ^ i) : a * 2 ^ i ||| x = a * 2 ^ i + x := by
  rw [Nat.mul_comm]
  exact (Nat.mul_add_lt_is_or hx a).symm

/-- The fields of a packed colour do not overlap. -/
theorem rgb1555_eq_sum (controlBit : Nat → Nat → Nat → Nat) (r g b : Nat)
    (hc : controlBit r g b < 2) (hg : g < 256) (hb : b < 256) :
    rgb1555 controlBit r g b = r / 8 * 2048 + g / 8 * 64 + b / 8 * 2 + controlBit r g b := by
  unfold rgb1555
  simp only [Nat.shiftRight_eq_div_pow, Nat.shiftLeft_eq]
  rw [Nat.lor_assoc, Nat.lor_assoc]
  rw [lor_field (b / 2 ^ 3) (controlBit r g b) 1 (by simpa using hc)]
  rw [lor_field (g / 2 ^ 3) _ 6 (by norm_num; omega)]
  rw [lor_field (r / 2 ^ 3) _ 11 (by norm_num; omega)]
  norm_num
  omega

/-- Claim C10. With the packer as the spec gives it and a one-bit control
flag, the value printed on the palette line of an entry `c` with 8-bit
channels is `(r>>3)<<11 | (g>>3)<<6 | (b>>3)<<1 | controlBit`; its four
fields do not overlap, so it is the sum of the fields, and it is below 2^16. -/
theorem rgb1555_palette_value (controlBit : Nat → Nat → Nat → Nat) (pal : liq_palette)
    (pal_len j : Nat) (c : liq_color)
    (hj : j < pal_len) (hlen : pal_len ≤ pal.entries.length) (hc : pal.entries[j]? = some c)
    (hctl : controlBit c.r c.g c.b < 2) (hr : c.r < 256) (hg : c.g < 256) (hb : c.b < 256) :
    (paletteLines (rgb1555 controlBit) pal pal_len)[j]?
        = some (paletteLine
            ((c.r >>> 3) <<< 11 ||| (c.g >>> 3) <<< 6 ||| (c.b >>> 3) <<< 1 |||
              controlBit c.r c.g c.b) j c)
      ∧ rgb1555 controlBit c.r c.g c.b
          = c.r / 8 * 2048 + c.g / 8 * 64 + c.b / 8 * 2 + controlBit c.r c.g c.b
      ∧ rgb1555 controlBit c.r c.g c.b < 2 ^ 16 := by
  refine ⟨?_, rgb1555_eq_sum controlBit c.r c.g c.b hctl hg hb, ?_⟩
  · obtain ⟨e, he, hl⟩ := paletteLines_getElem? (rgb1555 controlBit) pal pal_len j hj hlen
    rw [hc] at he
    cases he
    exact hl
  · rw [rgb1555_eq_sum controlBit c.r c.g c.b hctl hg hb]
    omega

/-- Witness of C10: entry 0 of the scenario palette, control bit 1. -/
theorem rgb1555_palette_value_witness :
    (0 < 2 ∧ 2 ≤ scenarioPalette.entries.length ∧
      scenarioPalette.entries[0]? = some ⟨255, 0, 0, 255⟩) ∧
    rgb1555 (fun _ _ _ => 1) 255 0 0 = 0xF801 :=
  ⟨by decide,
    (rgb1555_palette_value (fun _ _ _ => 1) scenarioPalette 2 0 ⟨255, 0, 0, 255⟩
      (by decide) (by decide) (by decide) (by decide) (by decide) (by decide)
      (by decide)).2.1.trans (by decide)⟩

/-! ## Byte arrays: images, tiles and compressed blobs -/

theorem classify_space : classify ' ' = .blank := by decide

theorem classify_tab : classify '\t' = .blank := by decide

theorem classify_lf : classify '\n' = .newline := by decide

theorem classify_rbrace : classify '\x7d' = .rbrace := by decide

/-- The calls made while an array is open append a text that reads back as
the bytes passed to `c_print_byte`, in call order. -/
theorem runArrayCalls_streams (th : Text) (calls : List ArrayCall) :
    ∀ tc : Text, ∃ body : Text,
      runArrayCalls (streams tc th) calls = streams (tc ++ body) th ∧
      ∀ (es : List Nat) (t : Text),
        scanFrom ⟨.idle, es⟩ (body ++ t) = scanFrom ⟨.idle, es ++ ArrayCall.bytes calls⟩ t := by
  induction calls with
  | nil =>
    intro tc
    exact ⟨[], by simp [runArrayCalls], by simp [ArrayCall.bytes]⟩
  | cons call calls ih =>
    intro tc
    cases call with
    | byte b need_comma =>
      obtain ⟨body, hrun, hscan⟩ := ih (tc ++ ("0x".toList ++ fmt_02X b ++ ",".toList))
      refine ⟨("0x".toList ++ fmt_02X b ++ ",".toList) ++ body, ?_, ?_⟩
      · have h : runArrayCalls (streams tc th) (ArrayCall.byte b need_comma :: calls)
            = runArrayCalls (streams (tc ++ ("0x".toList ++ fmt_02X b ++ ",".toList)) th)
                calls := by
          simp [runArrayCalls, ArrayCall.run, c_print_byte]
        rw [h, hrun, List.append_assoc]
      · intro es t
        have e : ("0x".toList ++ fmt_02X b ++ ",".toList) ++ body ++ t
            = "0x".toList ++ zeroPad 2 (fmtNat 16 b) ++ ",".toList ++ (body ++ t) := by
          simp [fmt_02X]
        rw [e, scanFrom_hex_element, hscan]
        simp [ArrayCall.bytes]
    | next_line =>
      obtain ⟨body, hrun, hscan⟩ := ih (tc ++ "\n ".toList)
      refine ⟨"\n ".toList ++ body, ?_, ?_⟩
      · have h : runArrayCalls (streams tc th) (ArrayCall.next_line :: calls)
            = runArrayCalls (streams (tc ++ "\n ".toList) th) calls := by
          simp [runArrayCalls, ArrayCall.run, c_print_next_array_line]
        rw [h, hrun, List.append_assoc]
      · intro es t
        have e : "\n ".toList ++ body ++ t = '\n' :: ' ' :: (body ++ t) := by simp
        rw [e, scanFrom_cons, scanStep_idle_blank _ _ (Or.inr classify_lf), scanFrom_cons,
          scanStep_idle_blank _ _ (Or.inl classify_space), hscan]
        simp [ArrayCall.bytes]

/-- The closer written by `c_print_next_array_line(out, true)` ends the
initializer. -/
theorem scanFrom_closer (es : List Nat) :
    scanFrom ⟨.idle, es⟩ "\n\x7d;\n".toList = ⟨.done, es⟩ := by
  have e : "\n\x7d;\n".toList = ['\n', '\x7d', ';', '\n'] := by simp
  rw [e, scanFrom_cons, scanStep_idle_blank _ _ (Or.inr classify_lf)]
  simp [scanFrom, scanStep, classify_rbrace]

/-- An opened array, the calls and the closing call: if the text `pre` that
follows the opening brace reads as the elements `fr`, the whole initializer
reads as `fr` followed by the bytes. -/
theorem closed_array_elements (tc th pre : Text) (fr : List Nat) (calls : List ArrayCall)
    (hpre : ∀ t, scanFrom ⟨.idle, []⟩ (pre ++ t) = scanFrom ⟨.idle, fr⟩ t) :
    ∃ body : Text,
      c_print_next_array_line (runArrayCalls (streams (tc ++ pre) th) calls) true
        = streams (tc ++ body) th ∧
      arrayElements body = some (fr ++ ArrayCall.bytes calls) := by
  obtain ⟨b, hrun, hscan⟩ := runArrayCalls_streams th calls (tc ++ pre)
  refine ⟨pre ++ b ++ "\n\x7d;\n".toList, ?_, ?_⟩
  · rw [hrun]
    simp [c_print_next_array_line]
  · apply arrayElements_of_scan
    rw [List.append_assoc, hpre, hscan, scanFrom_closer]

theorem scanFrom_image_framing (width height : Nat) (t : Text) :
    scanFrom ⟨.idle, []⟩
        ("\n ".toList ++ fmt_u width ++ ",".toList ++ fmt_u height ++
          ",  // width,height\n ".toList ++ t)
      = scanFrom ⟨.idle, [width, height]⟩ t := by
  have e : "\n ".toList ++ fmt_u width ++ ",".toList ++ fmt_u height ++
        ",  // width,height\n ".toList ++ t
      = '\n' :: ' ' :: (fmt_u width ++ ",".toList ++ (fmt_u height ++ ",".toList ++
          (' ' :: ' ' :: ("//".toList ++ " width,height".toList ++ "\n".toList ++
            (' ' :: t))))) := by
    simp
  rw [e, scanFrom_cons, scanStep_idle_blank _ _ (Or.inr classify_lf), scanFrom_cons,
    scanStep_idle_blank _ _ (Or.inl classify_space), scanFrom_dec_element,
    scanFrom_dec_element, scanFrom_cons, scanStep_idle_blank _ _ (Or.inl classify_space),
    scanFrom_cons, scanStep_idle_blank _ _ (Or.inl classify_space),
    scanFrom_line_comment _ _ _ (by decide), scanFrom_cons,
    scanStep_idle_blank _ _ (Or.inl classify_space)]
  simp

theorem scanFrom_tile_framing (width height : Nat) (t : Text) :
    scanFrom ⟨.idle, []⟩
        ("\n ".toList ++ fmt_u width ++ ",\t// tile_width\n ".toList ++ fmt_u height ++
          ",\t// tile_height\n ".toList ++ t)
      = scanFrom ⟨.idle, [width, height]⟩ t := by
  have e : "\n ".toList ++ fmt_u width ++ ",\t// tile_width\n ".toList ++ fmt_u height ++
        ",\t// tile_height\n ".toList ++ t
      = '\n' :: ' ' :: (fmt_u width ++ ",".toList ++
          ('\t' :: ("//".toList ++ " tile_width".toList ++ "\n".toList ++
            (' ' :: (fmt_u height ++ ",".toList ++
              ('\t' :: ("//".toList ++ " tile_height".toList ++ "\n".toList ++
                (' ' :: t)))))))) := by
    simp
  rw [e, scanFrom_cons, scanStep_idle_blank _ _ (Or.inr classify_lf), scanFrom_cons,
    scanStep_idle_blank _ _ (Or.inl classify_space), scanFrom_dec_element,
    scanFrom_cons, scanStep_idle_blank _ _ (Or.inl classify_tab),
    scanFrom_line_comment _ _ _ (by decide), scanFrom_cons,
    scanStep_idle_blank _ _ (Or.inl classify_space), scanFrom_dec_element,
    scanFrom_cons, scanStep_idle_blank _ _ (Or.inl classify_tab),
    scanFrom_line_comment _ _ _ (by decide), scanFrom_cons,
    scanStep_idle_blank _ _ (Or.inl classify_space)]
  simp

theorem scanFrom_blank_framing (t : Text) :
    scanFrom ⟨.idle, []⟩ ("\n ".toList ++ t) = scanFrom ⟨.idle, []⟩ t := by
  have e : "\n ".toList ++ t = '\n' :: ' ' :: t := by simp
  rw [e, scanFrom_cons, scanStep_idle_blank _ _ (Or.inr classify_lf), scanFrom_cons,
    scanStep_idle_blank _ _ (Or.inl classify_space)]

theorem scanFrom_lf_framing (t : Text) :
    scanFrom ⟨.idle, []⟩ ("\n".toList ++ t) = scanFrom ⟨.idle, []⟩ t := by
  have e : "\n".toList ++ t = '\n' :: t := by simp
  rw [e, scanFrom_cons, scanStep_idle_blank _ _ (Or.inr classify_lf)]

/-- Claim C2. For every name, bpp, width, height, every sequence of
`c_print_byte` and `c_print_next_array_line(false)` calls and every `size`
equal to the number of bytes plus two: after `c_print_image`, the calls and
`c_print_next_array_line(true)`, the definition stream holds the declaration
`uint8_t <name>_data[<size>] = {` followed by an initializer of exactly `size`
elements whose first two are width and height; likewise after `c_print_tile`
for `uint8_t <name>_tile_<t>_data[<size>]`. -/
theorem image_array_size_elements (tc th i_name : Text)
    (bpp size width height tile_num : Nat) (calls : List ArrayCall)
    (hsize : size = (ArrayCall.bytes calls).length + 2) :
    (∃ body elems,
      c_print_next_array_line
          (runArrayCalls (c_print_image (streams tc th) bpp i_name size width height) calls)
          true
        = streams (tc ++ ("// ".toList ++ fmt_u bpp ++ " bpp image\nuint8_t ".toList ++
            i_name ++ "_data[".toList ++ fmt_u size ++ "] = \x7b".toList) ++ body) th
      ∧ arrayElements body = some elems ∧ elems.length = size
      ∧ elems.take 2 = [width, height])
    ∧ (∃ body elems,
      c_print_next_array_line
          (runArrayCalls (c_print_tile (streams tc th) i_name tile_num size width height)
            calls) true
        = streams (tc ++ ("uint8_t ".toList ++ i_name ++ "_tile_".toList ++ fmt_u tile_num ++
            "_data[".toList ++ fmt_u size ++ "] = \x7b".toList) ++ body) th
      ∧ arrayElements body = some elems ∧ elems.length = size
      ∧ elems.take 2 = [width, height]) := by
  constructor
  · obtain ⟨body, hrun, hel⟩ := closed_array_elements
      (tc ++ ("// ".toList ++ fmt_u bpp ++ " bpp image\nuint8_t ".toList ++
        i_name ++ "_data[".toList ++ fmt_u size ++ "] = \x7b".toList)) th
      ("\n ".toList ++ fmt_u width ++ ",".toList ++ fmt_u height ++
        ",  // width,height\n ".toList) [width, height] calls
      (scanFrom_image_framing width height)
    refine ⟨body, [width, height] ++ ArrayCall.bytes calls, ?_, hel, ?_, ?_⟩
    · rw [← hrun]
      simp [c_print_image]
    · simp [hsize]
    · simp
  · obtain ⟨body, hrun, hel⟩ := closed_array_elements
      (tc ++ ("uint8_t ".toList ++ i_name ++ "_tile_".toList ++ fmt_u tile_num ++
        "_data[".toList ++ fmt_u size ++ "] = \x7b".toList)) th
      ("\n ".toList ++ fmt_u width ++ ",\t// tile_width\n ".toList ++ fmt_u height ++
        ",\t// tile_height\n ".toList) [width, height] calls
      (scanFrom_tile_framing width height)
    refine ⟨body, [width, height] ++ ArrayCall.bytes calls, ?_, hel, ?_, ?_⟩
    · rw [← hrun]
      simp [c_print_tile]
    · simp [hsize]
    · simp

/-- Witness of C2: the scenario image, width 8, height 8, 8 bpp, size 66. -/
theorem image_array_size_elements_witness :
    66 = (ArrayCall.bytes scenarioCalls).length + 2 ∧
    ∃ body elems,
      c_print_next_array_line
          (runArrayCalls (c_print_image (streams [] []) 8 "img".toList 66 8 8) scenarioCalls)
          true
        = streams ([] ++ ("// ".toList ++ fmt_u 8 ++ " bpp image\nuint8_t ".toList ++
            "img".toList ++ "_data[".toList ++ fmt_u 66 ++ "] = \x7b".toList) ++ body) []
      ∧ arrayElements body = some elems ∧ elems.length = 66
      ∧ elems.take 2 = [8, 8] :=
  ⟨by decide,
    (image_array_size_elements [] [] "img".toList 8 66 8 8 0 scenarioCalls (by decide)).1⟩

/-- Claim C3. For every byte sequence and every placement of line breaks
among the `c_print_byte` calls, the initializer left by an opener, the calls
and `c_print_next_array_line(true)` reads back, each `0xHH` element as a
number, as exactly the bytes passed, in order: after nothing for
`c_print_compressed_image` and `c_print_compressed_tile`, after width and
height for `c_print_image` and `c_print_tile`. -/
theorem byte_array_round_trip (tc th i_name : Text)
    (bpp size width height tile_num : Nat) (calls : List ArrayCall) :
    (∃ body,
      c_print_next_array_line
          (runArrayCalls (c_print_compressed_image (streams tc th) bpp i_name size) calls)
          true
        = streams (tc ++ ("// ".toList ++ fmt_u bpp ++ " bpp image\nuint8_t ".toList ++
            i_name ++ "_compressed[".toList ++ fmt_u size ++ "] = \x7b".toList) ++ body) th
      ∧ arrayElements body = some (ArrayCall.bytes calls))
    ∧ (∃ body,
      c_print_next_array_line
          (runArrayCalls (c_print_compressed_tile (streams tc th) i_name tile_num size) calls)
          true
        = streams (tc ++ ("uint8_t ".toList ++ i_name ++ "_tile_".toList ++ fmt_u tile_num ++
            "_compressed[".toList ++ fmt_u size ++ "] = \x7b".toList) ++ body) th
      ∧ arrayElements body = some (ArrayCall.bytes calls))
    ∧ (∃ body,
      c_print_next_array_line
          (runArrayCalls (c_print_image (streams tc th) bpp i_name size width height) calls)
          true
        = streams (tc ++ ("// ".toList ++ fmt_u bpp ++ " bpp image\nuint8_t ".toList ++
            i_name ++ "_data[".toList ++ fmt_u size ++ "] = \x7b".toList) ++ body) th
      ∧ arrayElements body = some (width :: height :: ArrayCall.bytes calls))
    ∧ (∃ body,
      c_print_next_array_line
          (runArrayCalls (c_print_tile (streams tc th) i_name tile_num size width height)
            calls) true
        = streams (tc ++ ("uint8_t ".toList ++ i_name ++ "_tile_".toList ++ fmt_u tile_num ++
            "_data[".toList ++ fmt_u size ++ "] = \x7b".toList) ++ body) th
      ∧ arrayElements body = some (width :: height :: ArrayCall.bytes calls)) := by
  refine ⟨?_, ?_, ?_, ?_⟩
  · obtain ⟨body, hrun, hel⟩ := closed_array_elements
      (tc ++ ("// ".toList ++ fmt_u bpp ++ " bpp image\nuint8_t ".toList ++
        i_name ++ "_compressed[".toList ++ fmt_u size ++ "] = \x7b".toList)) th
      "\n ".toList [] calls scanFrom_blank_framing
    refine ⟨body, ?_, by simpa using hel⟩
    rw [← hrun]
    simp [c_print_compressed_image]
  · obtain ⟨body, hrun, hel⟩ := closed_array_elements
      (tc ++ ("uint8_t ".toList ++ i_name ++ "_tile_".toList ++ fmt_u tile_num ++
        "_compressed[".toList ++ fmt_u size ++ "] = \x7b".toList)) th
      "\n".toList [] calls scanFrom_lf_framing
    refine ⟨body, ?_, by simpa using hel⟩
    rw [← hrun]
    simp [c_print_compressed_tile]
  · obtain ⟨body, hrun, hel⟩ := closed_array_elements
      (tc ++ ("// ".toList ++ fmt_u bpp ++ " bpp image\nuint8_t ".toList ++
        i_name ++ "_data[".toList ++ fmt_u size ++ "] = \x7b".toList)) th
      ("\n ".toList ++ fmt_u width ++ ",".toList ++ fmt_u height ++
        ",  // width,height\n ".toList) [width, height] calls
      (scanFrom_image_framing width height)
    refine ⟨body, ?_, by simpa using hel⟩
    rw [← hrun]
    simp [c_print_image]
  · obtain ⟨body, hrun, hel⟩ := closed_array_elements
      (tc ++ ("uint8_t ".toList ++ i_name ++ "_tile_".toList ++ fmt_u tile_num ++
        "_data[".toList ++ fmt_u size ++ "] = \x7b".toList)) th
      ("\n ".toList ++ fmt_u width ++ ",\t// tile_width\n ".toList ++ fmt_u height ++
        ",\t// tile_height\n ".toList) [width, height] calls
      (scanFrom_tile_framing width height)
    refine ⟨body, ?_, by simpa using hel⟩
    rw [← hrun]
    simp [c_print_tile]

/-! ## The emitted relocation routine -/

theorem appvar_init_step_length (w data i : Nat) (a : List Nat) :
    (appvar_init_step w data i a).length = a.length := by
  simp [appvar_init_step]

theorem forUpTo_appvar_init_step_length (w data k : Nat) (a : List Nat) :
    (forUpTo (appvar_init_step w data) k a).length = a.length := by
  induction k with
  | zero => rfl
  | succ k ih => simp [forUpTo, appvar_init_step_length, ih]

theorem reloc_first_entry (w data a0 : Nat) :
    (a0 + (data % 2 ^ w + 2 ^ w - a0 % 2 ^ w) % 2 ^ w) % 2 ^ w = data % 2 ^ w := by
  have hM : 0 < 2 ^ w := Nat.two_pow_pos w
  have h1 : a0 % 2 ^ w < 2 ^ w := Nat.mod_lt _ hM
  have h2 : a0 % 2 ^ w + (data % 2 ^ w + 2 ^ w - a0 % 2 ^ w) = data % 2 ^ w + 2 ^ w := by
    omega
  have e1 := Nat.add_mod a0 ((data % 2 ^ w + 2 ^ w - a0 % 2 ^ w) % 2 ^ w) (2 ^ w)
  have e2 := Nat.add_mod (a0 % 2 ^ w) (data % 2 ^ w + 2 ^ w - a0 % 2 ^ w) (2 ^ w)
  simp only [Nat.mod_mod] at e1 e2
  rw [e1, ← e2, h2, Nat.add_mod_right, Nat.mod_mod]

theorem reloc_later_entry (w data x : Nat) :
    (x + (data % 2 ^ w + 2 ^ w - data % 2 ^ w % 2 ^ w) % 2 ^ w) % 2 ^ w = x % 2 ^ w := by
  have h : data % 2 ^ w + 2 ^ w - data % 2 ^ w % 2 ^ w = 2 ^ w := by
    rw [Nat.mod_mod]
    omega
  rw [h, Nat.mod_self, Nat.add_zero]

/-- The table after the first `k` iterations of the emitted loop: entry 0
holds the load address, the other entries visited so far are unchanged (as
machine words), the rest is untouched. -/
theorem forUpTo_appvar_init_step_getElem? (w data : Nat) (a : List Nat) :
    ∀ k, k ≤ a.length → ∀ j,
      (forUpTo (appvar_init_step w data) k a)[j]? =
        if j < k then (if j = 0 then some (data % 2 ^ w) else (a[j]?).map (· % 2 ^ w))
        else a[j]? := by
  intro k
  induction k with
  | zero =>
    intro _ j
    simp [forUpTo]
  | succ k ih =>
    intro hk j
    have hlen := forUpTo_appvar_init_step_length w data k a
    have ihk := ih (by omega)
    have hkl : k < (forUpTo (appvar_init_step w data) k a).length := by omega
    have hak : a[k]? = some a[k] := List.getElem?_eq_getElem (by omega)
    have hgk : (forUpTo (appvar_init_step w data) k a).getD k 0 = a[k] := by
      rw [List.getD_eq_getElem?_getD, ihk k]
      simp [hak]
    simp only [forUpTo, appvar_init_step]
    rw [List.getElem?_set, hgk]
    by_cases hk0 : k = 0
    · subst hk0
      have hg0 : (forUpTo (appvar_init_step w data) 0 a).getD 0 0 = a[0] := hgk
      rw [hg0, reloc_first_entry]
      by_cases hj : j = 0
      · subst hj
        simp [hkl]
      · have hj1 : ¬ j < 0 + 1 := by omega
        have hj2 : ¬ 0 = j := by omega
        simp only [hj1, hj2, if_false]
        exact ihk j |>.trans (by simp)
    · have hg0 : (forUpTo (appvar_init_step w data) k a).getD 0 0 = data % 2 ^ w := by
        rw [List.getD_eq_getElem?_getD, ihk 0]
        have : 0 < k := by omega
        simp [this]
      rw [hg0, reloc_later_entry]
      by_cases hjk : k = j
      · subst hjk
        have h1 : k < k + 1 := by omega
        simp [hkl, h1, hk0, hak]
      · simp only [hjk, if_false]
        rw [ihk j]
        by_cases hjlt : j < k
        · have h1 : j < k + 1 := by omega
          simp [hjlt, h1]
        · have h1 : ¬ j < k + 1 := by omega
          simp [hjlt, h1]

/-- What the emitted loop leaves in the table: the load address in entry 0,
every other entry as it was (as a machine word). -/
theorem appvar_init_loop_getElem? (w data : Nat) (a : List Nat) (j : Nat) :
    (appvar_init_loop w data a)[j]? =
      if j = 0 then (if a = [] then none else some (data % 2 ^ w))
      else (a[j]?).map (· % 2 ^ w) := by
  unfold appvar_init_loop
  rw [forUpTo_appvar_init_step_getElem? w data a a.length (Nat.le_refl _) j]
  by_cases hj : j < a.length
  · have hne : a ≠ [] := by
      intro h
      subst h
      simp at hj
    simp [hj, hne]
  · have hnone : a[j]? = none := List.getElem?_eq_none (by omega)
    by_cases h0 : j = 0
    · subst h0
      have he : a = [] := List.length_eq_zero.mp (by omega)
      simp [he]
    · simp [hj, h0, hnone]

theorem appvar_init_loop_idem (w data : Nat) (a : List Nat) :
    appvar_init_loop w data (appvar_init_loop w data a) = appvar_init_loop w data a := by
  apply List.ext_getElem?
  intro j
  rw [appvar_init_loop_getElem? w data (appvar_init_loop w data a) j,
    appvar_init_loop_getElem? w data a j]
  by_cases h0 : j = 0
  · subst h0
    by_cases he : a = []
    · subst he
      simp [appvar_init_loop, forUpTo]
    · have hne : appvar_init_loop w data a ≠ [] := by
        intro h
        have hl := congrArg List.length h
        simp only [appvar_init_loop, forUpTo_appvar_init_step_length, List.length_nil] at hl
        exact he (List.length_eq_zero.mp hl)
      simp [he, hne]
  · simp only [h0, if_false]
    cases a[j]? with
    | none => rfl
    | some x => simp [Nat.mod_mod]

/-- Claim C4, evaluated on the code. For the table `[0, 100]` (two members,
relative offsets 0 and 100), load address `0xD1A881` and 24-bit words, one run
of the emitted loop leaves `[0xD1A881, 100]`: entry 1 is still the relative
offset, not `100 + (0xD1A881 - 0)`, so the claimed result does not hold for
every entry. -/
theorem appvar_init_loop_leaves_offsets :
    appvar_init_loop 24 0xD1A881 [0, 100] = [0xD1A881, 100] ∧
    ¬ (∀ i k : Nat, ([0, 100] : List Nat)[i]? = some k →
        (appvar_init_loop 24 0xD1A881 [0, 100])[i]? = some (k + (0xD1A881 - 0))) := by
  refine ⟨by decide, ?_⟩
  intro h
  have h1 := h 1 100 (by decide)
  revert h1
  decide

/-- Counterexample to C5. Table `[0, 100]`, load address 4096, 24-bit words:
after two invocations the table is `[4096, 100]`; no entry has been shifted
by `2 * (4096 - 0)`. -/
theorem appvar_init_twice_counterexample :
    (appvar_init 24 1 4096 (appvar_init 24 1 4096 [0, 100]).1).1 = [4096, 100] ∧
    ¬ (∀ i k : Nat, ([0, 100] : List Nat)[i]? = some k →
        (appvar_init 24 1 4096 (appvar_init 24 1 4096 [0, 100]).1).1[i]?
          = some (k + 2 * (4096 - 0))) := by
  refine ⟨by decide, ?_⟩
  intro h
  have h1 := h 1 100 (by decide)
  revert h1
  decide

/-- Claim C5, amended. For every word width, load address below `2 ^ w` and
non-empty table, a second invocation of the emitted routine with the same
load address leaves the table exactly as the first invocation left it, and
entry 0 holds the load address after the first invocation and after the
second: the routine subtracts the current entry 0, so nothing is shifted
twice. -/
theorem appvar_init_second_invocation (w appvar data : Nat) (a : List Nat)
    (hdata : data < 2 ^ w) (hne : a ≠ []) :
    (appvar_init w appvar data (appvar_init w appvar data a).1).1
        = (appvar_init w appvar data a).1
      ∧ (appvar_init w appvar data a).1[0]? = some data
      ∧ (appvar_init w appvar data (appvar_init w appvar data a).1).1[0]? = some data := by
  have h1 : (appvar_init w appvar data a).1[0]? = some data := by
    simp only [appvar_init]
    rw [appvar_init_loop_getElem?]
    simp [hne, Nat.mod_eq_of_lt hdata]
  have h2 : (appvar_init w appvar data (appvar_init w appvar data a).1).1
      = (appvar_init w appvar data a).1 := by
    simp only [appvar_init]
    exact appvar_init_loop_idem w data a
  exact ⟨h2, h1, by rw [h2]; exact h1⟩

/-- Witness of the amended C5: table `[0, 100]`, load address 4096. -/
theorem appvar_init_second_invocation_witness :
    (4096 < 2 ^ 24 ∧ ([0, 100] : List Nat) ≠ []) ∧
    (appvar_init 24 1 4096 (appvar_init 24 1 4096 [0, 100]).1).1
      = (appvar_init 24 1 4096 [0, 100]).1 :=
  ⟨by decide, (appvar_init_second_invocation 24 1 4096 [0, 100] (by decide) (by decide)).1⟩

/-! ## Tiles, pointer tables and declaration/definition pairing -/

theorem forUpTo_streams_h (body : Nat → output_t → output_t) (f : Nat → Text)
    (hbody : ∀ i tc th, body i (streams tc th) = streams tc (th ++ f i))
    (n : Nat) (tc th : Text) :
    forUpTo body n (streams tc th) = streams tc (th ++ ((List.range n).map f).flatten) := by
  induction n with
  | zero => simp [forUpTo]
  | succ n ih => simp [forUpTo, ih, hbody, List.range_succ]

theorem c_print_tile_ptrs_eq (tc th i_name : Text) (num_tiles : Nat) (compressed : Bool) :
    c_print_tile_ptrs (streams tc th) i_name num_tiles compressed
      = streams (tc ++ ("uint8_t *".toList ++ i_name ++
          (if compressed then "_tiles_compressed[".toList else "_tiles_data[".toList) ++
          fmt_u num_tiles ++ "] = \x7b\n".toList) ++
          ((List.range num_tiles).map fun i =>
            " ".toList ++ tileSymbol i_name i compressed ++ ",\n".toList).flatten ++
          "\x7d;\n".toList) th := by
  cases compressed
  · simp only [c_print_tile_ptrs, fprintf_c_streams, forUpTo_fprintf_c]
    simp [tileSymbol]
  · simp only [c_print_tile_ptrs, fprintf_c_streams, forUpTo_fprintf_c]
    simp [tileSymbol]

/-- Claim C7. For every image name, tile count `n` and compressed flag,
`c_print_tile_ptrs` appends to the definition stream a pointer array declared
with size `n` (`<name>_tiles_data[n]` or `<name>_tiles_compressed[n]`) whose
entries are exactly `n`, for the tile indices 0..n-1 in ascending order; entry
`i` is the symbol `c_print_tile` (plain) or `c_print_compressed_tile`
(compressed) defines for tile `i`. The declaration stream is unchanged. -/
theorem c_print_tile_ptrs_entries (tc th i_name : Text) (num_tiles : Nat) (compressed : Bool) :
    c_print_tile_ptrs (streams tc th) i_name num_tiles compressed
        = streams (tc ++ ("uint8_t *".toList ++ i_name ++
            (if compressed then "_tiles_compressed[".toList else "_tiles_data[".toList) ++
            fmt_u num_tiles ++ "] = \x7b\n".toList) ++
            ((List.range num_tiles).map fun i =>
              " ".toList ++ tileSymbol i_name i compressed ++ ",\n".toList).flatten ++
            "\x7d;\n".toList) th
      ∧ ((List.range num_tiles).map fun i =>
            " ".toList ++ tileSymbol i_name i compressed ++ ",\n".toList).length = num_tiles
      ∧ (∀ i, i < num_tiles →
          ((List.range num_tiles).map fun i =>
            " ".toList ++ tileSymbol i_name i compressed ++ ",\n".toList)[i]?
            = some (" ".toList ++ tileSymbol i_name i compressed ++ ",\n".toList))
      ∧ (∀ i size width height,
          c_print_tile (streams tc th) i_name i size width height
            = streams (tc ++ ("uint8_t ".toList ++ tileSymbol i_name i false ++ "[".toList ++
                fmt_u size ++ "] = \x7b\n ".toList ++ fmt_u width ++
                ",\t// tile_width\n ".toList ++ fmt_u height ++
                ",\t// tile_height\n ".toList)) th)
      ∧ (∀ i size,
          c_print_compressed_tile (streams tc th) i_name i size
            = streams (tc ++ ("uint8_t ".toList ++ tileSymbol i_name i true ++ "[".toList ++
                fmt_u size ++ "] = \x7b\n".toList)) th) := by
  refine ⟨c_print_tile_ptrs_eq tc th i_name num_tiles compressed, by simp, ?_, ?_, ?_⟩
  · intro i hi
    simp [List.getElem?_map, List.getElem?_range hi]
  · intro i size width height
    simp [c_print_tile, tileSymbol]
  · intro i size
    simp [c_print_compressed_tile, tileSymbol]

/-- Claim C8. Every symbol a header operation declares `extern` is defined by
the matching definition operation, called with the same arguments, with the
same element type, the same identifier and, where the declaration gives one,
the same array size: image arrays (plain and transparent headers, compressed
or not), the palette array, the tile arrays for every tile index, and the tile
pointer tables. -/
theorem declaration_definition_pairing (rgb1555 : Nat → Nat → Nat → Nat)
    (tc th name : Text) (bpp size width height len n : Nat) (pal : liq_palette) :
    (c_print_image_header (streams tc th) name size true
        = streams tc (th ++
            externDecl "uint8_t ".toList (name ++ "_compressed".toList) (some size))
      ∧ c_print_transparent_image_header (streams tc th) name size true
        = streams tc (th ++
            externDecl "uint8_t ".toList (name ++ "_compressed".toList) (some size))
      ∧ c_print_compressed_image (streams tc th) bpp name size
        = streams (tc ++ ("// ".toList ++ fmt_u bpp ++ " bpp image\n".toList) ++
            definitionOpen "uint8_t ".toList (name ++ "_compressed".toList) size ++
            "\n ".toList) th)
    ∧ (c_print_image_header (streams tc th) name size false
        = streams tc (th ++ externDecl "uint8_t ".toList (name ++ "_data".toList) (some size) ++
            ("#define ".toList ++ name ++ " ((gfx_image_t*)".toList ++ name ++
              "_data)\n".toList))
      ∧ c_print_transparent_image_header (streams tc th) name size false
        = streams tc (th ++ externDecl "uint8_t ".toList (name ++ "_data".toList) (some size) ++
            ("#define ".toList ++ name ++ " ((gfx_timage_t*)".toList ++ name ++
              "_data)\n".toList))
      ∧ c_print_image (streams tc th) bpp name size width height
        = streams (tc ++ ("// ".toList ++ fmt_u bpp ++ " bpp image\n".toList) ++
            definitionOpen "uint8_t ".toList (name ++ "_data".toList) size ++
            ("\n ".toList ++ fmt_u width ++ ",".toList ++ fmt_u height ++
              ",  // width,height\n ".toList)) th)
    ∧ (c_print_palette_header (streams tc th) name len
        = streams tc (th ++ ("#define sizeof_".toList ++ name ++ "_pal ".toList ++
              fmt_u (len * 2 % 2 ^ 32) ++ "\n".toList) ++
            externDecl "uint16_t ".toList (name ++ "_pal".toList) (some len))
      ∧ c_print_palette rgb1555 (streams tc th) name pal len
        = streams (tc ++ definitionOpen "uint16_t ".toList (name ++ "_pal".toList) len ++
            ("\n".toList ++ (paletteLines rgb1555 pal len).flatten ++ "\x7d;".toList)) th)
    ∧ (c_print_tiles_header (streams tc th) name n true
        = streams tc (th ++ ((List.range n).map fun i =>
            externDecl "uint8_t ".toList (tileSymbol name i true) none).flatten)
      ∧ ∀ i, c_print_compressed_tile (streams tc th) name i size
        = streams (tc ++ definitionOpen "uint8_t ".toList (tileSymbol name i true) size ++
            "\n".toList) th)
    ∧ (c_print_tiles_header (streams tc th) name n false
        = streams tc (th ++ ((List.range n).map fun i =>
            externDecl "uint8_t ".toList (tileSymbol name i false) none ++
              ("#define ".toList ++ name ++ "_tile_".toList ++ fmt_u i ++
                " ((gfx_image_t*)".toList ++ tileSymbol name i false ++ ")\n".toList)).flatten)
      ∧ ∀ i, c_print_tile (streams tc th) name i size width height
        = streams (tc ++ definitionOpen "uint8_t ".toList (tileSymbol name i false) size ++
            ("\n ".toList ++ fmt_u width ++ ",\t// tile_width\n ".toList ++ fmt_u height ++
              ",\t// tile_height\n ".toList)) th)
    ∧ (c_print_tiles_ptrs_header (streams tc th) name n true
        = streams tc (th ++
            externDecl "uint8_t *".toList (name ++ "_tiles_compressed".toList) (some n))
      ∧ c_print_tile_ptrs (streams tc th) name n true
        = streams (tc ++
            definitionOpen "uint8_t *".toList (name ++ "_tiles_compressed".toList) n ++
            ("\n".toList ++ ((List.range n).map fun i =>
              " ".toList ++ tileSymbol name i true ++ ",\n".toList).flatten ++
              "\x7d;\n".toList)) th)
    ∧ (c_print_tiles_ptrs_header (streams tc th) name n false
        = streams tc (th ++
            externDecl "uint8_t *".toList (name ++ "_tiles_data".toList) (some n) ++
            ("#define ".toList ++ name ++ "_tiles ((gfx_image_t**)".toList ++ name ++
              "_tiles_data)\n".toList))
      ∧ c_print_tile_ptrs (streams tc th) name n false
        = streams (tc ++
            definitionOpen "uint8_t *".toList (name ++ "_tiles_data".toList) n ++
            ("\n".toList ++ ((List.range n).map fun i =>
              " ".toList ++ tileSymbol name i false ++ ",\n".toList).flatten ++
              "\x7d;\n".toList)) th) := by
  refine ⟨⟨?_, ?_, ?_⟩, ⟨?_, ?_, ?_⟩, ⟨?_, ?_⟩, ⟨?_, ?_⟩, ⟨?_, ?_⟩, ⟨?_, ?_⟩, ⟨?_, ?_⟩⟩
  · simp [c_print_image_header, externDecl]
  · simp [c_print_transparent_image_header, externDecl]
  · simp [c_print_compressed_image, definitionOpen]
  · simp [c_print_image_header, externDecl]
  · simp [c_print_transparent_image_header, externDecl]
  · simp [c_print_image, definitionOpen]
  · simp [c_print_palette_header, externDecl]
  · rw [c_print_palette_eq]
    simp [definitionOpen]
  · simp only [c_print_tiles_header, if_true]
    rw [forUpTo_fprintf_h]
    simp [externDecl, tileSymbol]
  · intro i
    simp [c_print_compressed_tile, definitionOpen, tileSymbol]
  · simp only [c_print_tiles_header, Bool.false_eq_true, if_false]
    rw [forUpTo_streams_h _ (fun i =>
      externDecl "uint8_t ".toList (tileSymbol name i false) none ++
        ("#define ".toList ++ name ++ "_tile_".toList ++ fmt_u i ++
          " ((gfx_image_t*)".toList ++ tileSymbol name i false ++ ")\n".toList))]
    intro i tc th
    simp [externDecl, tileSymbol]
  · intro i
    simp [c_print_tile, definitionOpen, tileSymbol]
  · simp [c_print_tiles_ptrs_header, externDecl]
  · rw [c_print_tile_ptrs_eq]
    simp [definitionOpen]
  · simp [c_print_tiles_ptrs_header, externDecl]
  · rw [c_print_tile_ptrs_eq]
    simp [definitionOpen]

/-! ## Appvar pointer array -/

/-- The body of a parenthesised cast is skipped. -/
theorem scanFrom_cast (es : List Nat) (t : Text) (h : ∀ c ∈ t, classify c ≠ .rparen) :
    scanFrom ⟨.cast, es⟩ t = ⟨.cast, es⟩ := by
  induction t with
  | nil => rfl
  | cons c t ih =>
    have hc : classify c ≠ .rparen := h c (List.mem_cons_self _ _)
    have hs : scanStep ⟨.cast, es⟩ c = ⟨.cast, es⟩ := by
      unfold scanStep
      simp only
    rw [scanFrom_cons, hs, ih (fun c hc => h c (List.mem_cons_of_mem _ hc))]

/-- Reading one appvar entry `(uint8_t*)<offset>,` yields the offset. -/
theorem scanFrom_appvar_entry (es : List Nat) (offset : Nat) (t : Text) :
    scanFrom ⟨.idle, es⟩ ("(uint8_t*)".toList ++ fmt_u offset ++ ",".toList ++ t)
      = scanFrom ⟨.idle, es ++ [offset]⟩ t := by
  have hl : classify '(' = .lparen := by decide
  have hr : classify ')' = .rparen := by decide
  have e : "(uint8_t*)".toList ++ fmt_u offset ++ ",".toList ++ t
      = '(' :: ("uint8_t*".toList ++ (')' :: (fmt_u offset ++ ",".toList ++ t))) := by simp
  have s1 : scanStep ⟨.idle, es⟩ '(' = ⟨.cast, es⟩ := by simp [scanStep, hl]
  have s2 : scanStep ⟨.cast, es⟩ ')' = ⟨.idle, es⟩ := by simp [scanStep, hr]
  rw [e, scanFrom_cons, s1, scanFrom_append, scanFrom_cast es _ (by decide), scanFrom_cons, s2,
    scanFrom_dec_element]

/-- The member calls append one entry each to the definition stream, in call
order, and only macros to the declaration stream. -/
theorem runAppvarMembers_streams (a_name : Text) (ms : List AppvarMember) :
    ∀ tc th : Text, ∃ macros : Text,
      runAppvarMembers a_name (streams tc th) ms
        = streams (tc ++ (ms.map fun m =>
            "(uint8_t*)".toList ++ fmt_u m.offset ++ ",".toList).flatten) (th ++ macros) := by
  induction ms with
  | nil =>
    intro tc th
    exact ⟨[], by simp [runAppvarMembers]⟩
  | cons m ms ih =>
    intro tc th
    cases m with
    | image offset i_name index compressed tp_style =>
      cases compressed
      · obtain ⟨macros, h⟩ := ih (tc ++ ("(uint8_t*)".toList ++ fmt_u offset ++ ",".toList))
          (th ++ ("#define ".toList ++ i_name ++ " ((".toList ++
            (if tp_style then "gfx_timage_t".toList else "gfx_image_t".toList) ++
            "*)".toList ++ a_name ++ "[".toList ++ fmt_u index ++ "])\n".toList))
        refine ⟨("#define ".toList ++ i_name ++ " ((".toList ++
            (if tp_style then "gfx_timage_t".toList else "gfx_image_t".toList) ++
            "*)".toList ++ a_name ++ "[".toList ++ fmt_u index ++ "])\n".toList) ++ macros, ?_⟩
        simp only [runAppvarMembers, List.foldl_cons, AppvarMember.run, c_print_appvar_image,
          fprintf_c_streams, fprintf_h_streams, Bool.false_eq_true, if_false] at h ⊢
        rw [h]
        simp [AppvarMember.offset]
      · obtain ⟨macros, h⟩ := ih (tc ++ ("(uint8_t*)".toList ++ fmt_u offset ++ ",".toList))
          (th ++ ("#define ".toList ++ i_name ++ "_compressed ((".toList ++
            (if tp_style then "gfx_timage_t".toList else "gfx_image_t".toList) ++
            "*)".toList ++ a_name ++ "[".toList ++ fmt_u index ++ "])\n".toList))
        refine ⟨("#define ".toList ++ i_name ++ "_compressed ((".toList ++
            (if tp_style then "gfx_timage_t".toList else "gfx_image_t".toList) ++
            "*)".toList ++ a_name ++ "[".toList ++ fmt_u index ++ "])\n".toList) ++ macros, ?_⟩
        simp only [runAppvarMembers, List.foldl_cons, AppvarMember.run, c_print_appvar_image,
          fprintf_c_streams, fprintf_h_streams, if_true] at h ⊢
        rw [h]
        simp [AppvarMember.offset]
    | palette offset =>
      obtain ⟨macros, h⟩ := ih (tc ++ ("(uint8_t*)".toList ++ fmt_u offset ++ ",".toList)) th
      refine ⟨macros, ?_⟩
      simp only [runAppvarMembers, List.foldl_cons, AppvarMember.run, c_print_appvar_palette,
        fprintf_c_streams] at h ⊢
      rw [h]
      simp [AppvarMember.offset]

theorem scanFrom_appvar_entries (ms : List AppvarMember) :
    ∀ (es : List Nat) (t : Text),
      scanFrom ⟨.idle, es⟩ ((ms.map fun m =>
          "(uint8_t*)".toList ++ fmt_u m.offset ++ ",".toList).flatten ++ t)
        = scanFrom ⟨.idle, es ++ ms.map AppvarMember.offset⟩ t := by
  induction ms with
  | nil =>
    intro es t
    simp
  | cons m ms ih =>
    intro es t
    rw [List.map_cons, List.flatten_cons, List.append_assoc, scanFrom_appvar_entry, ih]
    simp

/-- Claim C9. For every appvar name and every list of `n` member calls,
`c_print_appvar_array(name, n)` followed by the calls leaves in the
definition stream the head `uint8_t *<name>[<n>] = {` and exactly `n` entries
`(uint8_t*)<offset>,` that read back as the offsets passed, in call order;
and in the declaration stream the constant `<name>_num <n>` and the
declaration `extern uint8_t *<name>[<n>];`, followed only by the members'
macros. -/
theorem appvar_array_entries (tc th a_name : Text) (n : Nat) (ms : List AppvarMember)
    (hn : n = ms.length) :
    (∃ macros : Text,
      runAppvarMembers a_name (c_print_appvar_array (streams tc th) a_name n) ms
        = streams
            (tc ++ definitionOpen "uint8_t *".toList a_name n ++
              ("\n ".toList ++ (ms.map fun m =>
                "(uint8_t*)".toList ++ fmt_u m.offset ++ ",".toList).flatten))
            (th ++ "#include <stdbool.h>\n\n".toList ++
              ("#define ".toList ++ a_name ++ "_num ".toList ++ fmt_u n ++ "\n\n".toList) ++
              externDecl "uint8_t *".toList a_name (some n) ++ macros))
      ∧ (ms.map fun m => "(uint8_t*)".toList ++ fmt_u m.offset ++ ",".toList).length = n
      ∧ openArrayElements ("\n ".toList ++ (ms.map fun m =>
            "(uint8_t*)".toList ++ fmt_u m.offset ++ ",".toList).flatten)
          = some (ms.map AppvarMember.offset) := by
  refine ⟨?_, by simp [hn], ?_⟩
  · obtain ⟨macros, h⟩ := runAppvarMembers_streams a_name ms
      (tc ++ definitionOpen "uint8_t *".toList a_name n ++ "\n ".toList)
      (th ++ "#include <stdbool.h>\n\n".toList ++
        ("#define ".toList ++ a_name ++ "_num ".toList ++ fmt_u n ++ "\n\n".toList) ++
        externDecl "uint8_t *".toList a_name (some n))
    refine ⟨macros, ?_⟩
    have e : c_print_appvar_array (streams tc th) a_name n
        = streams (tc ++ definitionOpen "uint8_t *".toList a_name n ++ "\n ".toList)
            (th ++ "#include <stdbool.h>\n\n".toList ++
              ("#define ".toList ++ a_name ++ "_num ".toList ++ fmt_u n ++ "\n\n".toList) ++
              externDecl "uint8_t *".toList a_name (some n)) := by
      simp [c_print_appvar_array, definitionOpen, externDecl]
    rw [e, h]
    simp
  · apply openArrayElements_of_scan
    have h := scanFrom_appvar_entries ms [] []
    rw [List.append_nil] at h
    have e : "\n ".toList ++ (ms.map fun m =>
          "(uint8_t*)".toList ++ fmt_u m.offset ++ ",".toList).flatten
        = '\n' :: ' ' :: (ms.map fun m =>
          "(uint8_t*)".toList ++ fmt_u m.offset ++ ",".toList).flatten := by simp
    rw [e, scanFrom_cons, scanStep_idle_blank _ _ (Or.inr classify_lf), scanFrom_cons,
      scanStep_idle_blank _ _ (Or.inl classify_space), h]
    simp [scanFrom_nil]

/-- Witness of C9: an appvar `av` with an image at offset 0 and a palette at
offset 130. -/
theorem appvar_array_entries_witness :
    2 = [AppvarMember.image 0 "a".toList 0 false false, AppvarMember.palette 130].length ∧
    openArrayElements ("\n ".toList ++
        ([AppvarMember.image 0 "a".toList 0 false false, AppvarMember.palette 130].map fun m =>
          "(uint8_t*)".toList ++ fmt_u m.offset ++ ",".toList).flatten)
      = some ([AppvarMember.image 0 "a".toList 0 false false,
          AppvarMember.palette 130].map AppvarMember.offset) :=
  ⟨by decide,
    (appvar_array_entries [] [] "av".toList 2
      [AppvarMember.image 0 "a".toList 0 false false, AppvarMember.palette 130]
      (by decide)).2.2⟩

/-! ## Image headers and appvar members -/

/-- Counterexample to C11. For the image `img` of size 66 with the compressed
flag set, both header operations write only the line
`extern uint8_t img_compressed[66];`: the declaration stream receives no
`#define`, hence no alias macro. -/
theorem image_header_compressed_counterexample :
    c_print_image_header (streams [] []) "img".toList 66 true
        = streams [] "extern uint8_t img_compressed[66];\n".toList
      ∧ c_print_transparent_image_header (streams [] []) "img".toList 66 true
        = streams [] "extern uint8_t img_compressed[66];\n".toList
      ∧ ¬ List.IsInfix "#define".toList "extern uint8_t img_compressed[66];\n".toList := by
  decide

/-- Claim C11, amended. For every image name and size, neither header
operation writes to the definition stream. Without the compressed flag,
`c_print_image_header` writes the declaration `extern uint8_t <name>_data[<size>];`
and the alias macro `#define <name> ((gfx_image_t*)<name>_data)`, and
`c_print_transparent_image_header` the same with `gfx_timage_t*`. With the
compressed flag both write only `extern uint8_t <name>_compressed[<size>];`. -/
theorem image_header_declaration (tc th i_name : Text) (size : Nat) :
    c_print_image_header (streams tc th) i_name size false
        = streams tc (th ++
            externDecl "uint8_t ".toList (i_name ++ "_data".toList) (some size) ++
            aliasMacro i_name "gfx_image_t".toList (i_name ++ "_data".toList))
      ∧ c_print_transparent_image_header (streams tc th) i_name size false
        = streams tc (th ++
            externDecl "uint8_t ".toList (i_name ++ "_data".toList) (some size) ++
            aliasMacro i_name "gfx_timage_t".toList (i_name ++ "_data".toList))
      ∧ c_print_image_header (streams tc th) i_name size true
        = streams tc (th ++
            externDecl "uint8_t ".toList (i_name ++ "_compressed".toList) (some size))
      ∧ c_print_transparent_image_header (streams tc th) i_name size true
        = streams tc (th ++
            externDecl "uint8_t ".toList (i_name ++ "_compressed".toList) (some size)) := by
  refine ⟨?_, ?_, ?_, ?_⟩
  · simp [c_print_image_header, externDecl, aliasMacro]
  · simp [c_print_transparent_image_header, externDecl, aliasMacro]
  · simp [c_print_image_header, externDecl]
  · simp [c_print_transparent_image_header, externDecl]

/-- Claim C12. For every appvar name, image name, offset, index and flags,
one call of `c_print_appvar_image` appends to the definition stream the one
entry `(uint8_t*)<offset>,`, which reads back as the single element `offset`,
and to the declaration stream the one alias macro
`#define <i_name> ((<ty>*)<a_name>[<index>])`, named `<i_name>_compressed` when
compressed, with `<ty>` being `gfx_timage_t` when `tp_style` and `gfx_image_t`
otherwise. -/
theorem c_print_appvar_image_entry (tc th a_name i_name : Text) (offset index : Nat)
    (compressed tp_style : Bool) :
    c_print_appvar_image (streams tc th) a_name offset i_name index compressed tp_style
        = streams (tc ++ ("(uint8_t*)".toList ++ fmt_u offset ++ ",".toList))
            (th ++ aliasMacro
              (if compressed then i_name ++ "_compressed".toList else i_name)
              (if tp_style then "gfx_timage_t".toList else "gfx_image_t".toList)
              (a_name ++ "[".toList ++ fmt_u index ++ "]".toList))
      ∧ openArrayElements ("(uint8_t*)".toList ++ fmt_u offset ++ ",".toList)
        = some [offset] := by
  constructor
  · cases compressed <;> cases tp_style <;> simp [c_print_appvar_image, aliasMacro]
  · apply openArrayElements_of_scan
    have h := scanFrom_appvar_entry [] offset []
    rw [List.append_nil] at h
    rw [h]
    rfl

/-! ## Stream lifecycle -/

/-- Claim C13. For every output state, `c_close_output` returns the state
unchanged, closing nothing, when the handle selected by the flag is absent
(`h` for the declaration stream, `c` for the definition stream); whatever the
state, it leaves the handle not selected by the flag as it was. A handle stays
absent when `c_open_output` is given no path. -/
theorem c_close_output_absent (fopen : Text → Option FILE) (out : output_t) :
    (out.h = none → c_close_output out true = out)
      ∧ (out.c = none → c_close_output out false = out)
      ∧ (c_close_output out true).c = out.c
      ∧ (c_close_output out false).h = out.h
      ∧ (∀ header, c_open_output fopen out none header = .ok out) := by
  refine ⟨?_, ?_, ?_, ?_, ?_⟩
  · intro h
    simp [c_close_output, h]
  · intro h
    simp [c_close_output, h]
  · cases hh : out.h <;> simp [c_close_output, hh]
  · cases hc : out.c <;> simp [c_close_output, hc]
  · intro header
    rfl

/-- Witness of C13: only the declaration stream was opened; closing the
definition stream changes nothing. -/
theorem c_close_output_absent_witness :
    c_close_output { c := none, h := some { text := "x".toList, closed := false } } false
      = { c := none, h := some { text := "x".toList, closed := false } } :=
  (c_close_output_absent (fun _ => none)
    { c := none, h := some { text := "x".toList, closed := false } }).2.1 rfl

/-! ## Named constants -/

theorem fmtNat_ne_nil (b n : Nat) (hb : 2 ≤ b) : fmtNat b n ≠ [] := by
  by_cases h : n < b
  · rw [fmtNat_lt b n h]
    simp
  · rw [fmtNat_ge b n hb (by omega)]
    simp

theorem decimalValue_fold (n : Nat) :
    (fmtNat 10 n).foldl (fun acc c =>
        match acc, classify c with
        | some v, .digit d => some (10 * v + d)
        | _, _ => none) (some 0) = some n := by
  induction n using Nat.strong_induction_on with
  | _ n ih =>
    by_cases h : n < 10
    · have hc := classify_digitChar n (by omega)
      rw [fmtNat_lt 10 n h]
      simp [hc, h]
    · have hc := classify_digitChar (n % 10) (by omega)
      have hlt : n % 10 < 10 := Nat.mod_lt _ (by omega)
      rw [fmtNat_ge 10 n (by omega) (by omega), List.foldl_append,
        ih (n / 10) (Nat.div_lt_self (by omega) (by omega))]
      simp only [List.foldl_cons, List.foldl_nil, hc, hlt, if_true]
      congr 1
      omega

/-- A number printed with `%u` reads back as itself. -/
theorem decimalValue_fmt_u (n : Nat) : decimalValue (fmt_u n) = some n := by
  unfold fmt_u
  have hne := fmtNat_ne_nil 10 n (by omega)
  have hf := decimalValue_fold n
  cases ht : fmtNat 10 n with
  | nil => exact absurd ht hne
  | cons c t =>
    rw [ht] at hf
    simpa [decimalValue] using hf

/-- Claim C14. For every group name and index, `c_print_transparent_index`
appends to the declaration stream the one line
`#define <name>_transparent_color_index <index>` (and an empty line), whose
decimal value reads back as `index`; the definition stream is unchanged. -/
theorem c_print_transparent_index_constant (tc th group_name : Text) (index : Nat) :
    c_print_transparent_index (streams tc th) group_name index
        = streams tc (th ++ ("#define ".toList ++ group_name ++
            "_transparent_color_index ".toList ++ fmt_u index ++ "\n".toList) ++ "\n".toList)
      ∧ decimalValue (fmt_u index) = some index := by
  constructor
  · simp [c_print_transparent_index]
  · exact decimalValue_fmt_u index

/-- Witness of C14: the scenario palette under the name `gfx` with
transparent index 1: a two-element array in the definition stream and the
constant `gfx_transparent_color_index 1` in the declaration stream. -/
theorem c_print_transparent_index_constant_witness :
    c_print_transparent_index
        (c_print_palette (rgb1555 fun _ _ _ => 0) (streams [] []) "gfx".toList
          scenarioPalette 2) "gfx".toList 1
      = streams ("uint16_t gfx_pal[2] = \x7b\n".toList ++
          " 0xF800,  // 00 :: rgba(255,0,0,255)\n".toList ++
          " 0x07C0,  // 01 :: rgba(0,255,0,0)\n".toList ++ "\x7d;".toList)
          "#define gfx_transparent_color_index 1\n\n".toList
    ∧ arrayElements ("\n".toList ++
          " 0xF800,  // 00 :: rgba(255,0,0,255)\n".toList ++
          " 0x07C0,  // 01 :: rgba(0,255,0,0)\n".toList ++ "\x7d;".toList)
      = some [0xF800, 0x07C0] :=
  ⟨(congrArg (fun o => c_print_transparent_index o "gfx".toList 1)
      (show c_print_palette (rgb1555 fun _ _ _ => 0) (streams [] []) "gfx".toList
          scenarioPalette 2
        = streams ("uint16_t gfx_pal[2] = \x7b\n".toList ++
          " 0xF800,  // 00 :: rgba(255,0,0,255)\n".toList ++
          " 0x07C0,  // 01 :: rgba(0,255,0,0)\n".toList ++ "\x7d;".toList) [] by decide)).trans
    ((c_print_transparent_index_constant _ [] "gfx".toList 1).1.trans (by decide)),
   by decide⟩

/-- Claim C17. For every name and length, `c_print_palette_header` and
`c_print_appvar_palette_header` write the same line
`#define sizeof_<name>_pal <v>` with `v = (2 * len) mod 2^32`, which reads back
as `v`; for `len < 2^31` the value is exactly `2 * len`, two bytes for each of
the `len` elements of the array `uint16_t <name>_pal[<len>]` that
`c_print_palette_header` declares and `c_print_palette` defines. -/
theorem palette_sizeof_constant (rgb1555 : Nat → Nat → Nat → Nat)
    (tc th name a_name : Text) (index len : Nat) (pal : liq_palette) :
    c_print_palette_header (streams tc th) name len
        = streams tc (th ++ sizeofLine name (2 * len % 2 ^ 32) ++
            externDecl "uint16_t ".toList (name ++ "_pal".toList) (some len))
      ∧ c_print_appvar_palette_header (streams tc th) name a_name index len
        = streams tc (th ++ sizeofLine name (2 * len % 2 ^ 32) ++
            aliasMacro (name ++ "_pal".toList) "uint16_t".toList
              (a_name ++ "[".toList ++ fmt_u index ++ "]".toList))
      ∧ decimalValue (fmt_u (2 * len % 2 ^ 32)) = some (2 * len % 2 ^ 32)
      ∧ (len < 2 ^ 31 → 2 * len % 2 ^ 32 = 2 * len)
      ∧ c_print_palette rgb1555 (streams tc th) name pal len
        = streams (tc ++ definitionOpen "uint16_t ".toList (name ++ "_pal".toList) len ++
            ("\n".toList ++ (paletteLines rgb1555 pal len).flatten ++ "\x7d;".toList)) th := by
  refine ⟨?_, ?_, decimalValue_fmt_u _, ?_, ?_⟩
  · simp [c_print_palette_header, sizeofLine, externDecl, Nat.mul_comm]
  · simp [c_print_appvar_palette_header, sizeofLine, aliasMacro, Nat.mul_comm]
  · intro h
    exact Nat.mod_eq_of_lt (by omega)
  · rw [c_print_palette_eq]
    simp [definitionOpen]

/-- Witness of C17: a palette of 256 entries has the byte size 512. -/
theorem palette_sizeof_constant_witness :
    (256 < 2 ^ 31)
      ∧ c_print_palette_header (streams [] []) "gfx".toList 256
        = streams [] ("#define sizeof_gfx_pal 512\n".toList ++
            "extern uint16_t gfx_pal[256];\n".toList)
      ∧ 2 * 256 % 2 ^ 32 = 2 * 256 :=
  ⟨by decide,
    (palette_sizeof_constant (rgb1555 fun _ _ _ => 0) [] [] "gfx".toList "av".toList 0 256
      scenarioPalette).1.trans (by decide),
    (palette_sizeof_constant (rgb1555 fun _ _ _ => 0) [] [] "gfx".toList "av".toList 0 256
      scenarioPalette).2.2.2.1 (by decide)⟩

/-! ## Alpha and the packed value -/

theorem entries_getElem?_entry (pal : liq_palette) (j : Nat) (h : j < pal.entries.length) :
    pal.entries[j]? = some (pal.entry j) := by
  simp [liq_palette.entry, List.getD_eq_getElem?_getD, List.getElem?_eq_getElem h]

theorem paletteLine_eq_head (v j : Nat) (e : liq_color) :
    paletteLine v j e = paletteLineHead v j e.r e.g e.b ++ fmt_u e.a ++ ")\n".toList := by
  simp [paletteLine, paletteLineHead]

/-- Claim C18. For every packer, group name and every two palettes of the
same length whose entries agree on r, g and b at every index, the texts
`c_print_palette` writes for them are the same opener, the entry lines and the
closer, where the two entry lines of every index carry the same packed value,
computed from r, g and b alone, and are equal up to the alpha channel printed
at the end of the `rgba(...)` comment; the two literals read back as the same
list of packed values. -/
theorem palette_alpha_independent (rgb1555 : Nat → Nat → Nat → Nat)
    (tc th group_name : Text) (pal1 pal2 : liq_palette) (pal_len : Nat)
    (hsame : pal1.entries.length = pal2.entries.length)
    (hlen : pal_len ≤ pal1.entries.length)
    (hrgb : ∀ (j : Nat) (e1 e2 : liq_color),
      pal1.entries[j]? = some e1 → pal2.entries[j]? = some e2 →
      e1.r = e2.r ∧ e1.g = e2.g ∧ e1.b = e2.b) :
    c_print_palette rgb1555 (streams tc th) group_name pal1 pal_len
        = streams (tc ++ ("uint16_t ".toList ++ group_name ++ "_pal[".toList ++
            fmt_u pal_len ++ "] = \x7b".toList) ++
            ("\n".toList ++ (paletteLines rgb1555 pal1 pal_len).flatten ++ "\x7d;".toList)) th
    ∧ c_print_palette rgb1555 (streams tc th) group_name pal2 pal_len
        = streams (tc ++ ("uint16_t ".toList ++ group_name ++ "_pal[".toList ++
            fmt_u pal_len ++ "] = \x7b".toList) ++
            ("\n".toList ++ (paletteLines rgb1555 pal2 pal_len).flatten ++ "\x7d;".toList)) th
    ∧ arrayElements
        ("\n".toList ++ (paletteLines rgb1555 pal1 pal_len).flatten ++ "\x7d;".toList)
      = arrayElements
        ("\n".toList ++ (paletteLines rgb1555 pal2 pal_len).flatten ++ "\x7d;".toList)
    ∧ arrayElements
        ("\n".toList ++ (paletteLines rgb1555 pal1 pal_len).flatten ++ "\x7d;".toList)
      = some ((pal1.entries.take pal_len).map fun e => rgb1555 e.r e.g e.b)
    ∧ (paletteLines rgb1555 pal1 pal_len).length = pal_len
    ∧ (paletteLines rgb1555 pal2 pal_len).length = pal_len
    ∧ (∀ j, j < pal_len → ∃ e1 e2,
        pal1.entries[j]? = some e1 ∧ pal2.entries[j]? = some e2 ∧
        (paletteLines rgb1555 pal1 pal_len)[j]?
          = some (paletteLineHead (rgb1555 e1.r e1.g e1.b) j e1.r e1.g e1.b ++
              fmt_u e1.a ++ ")\n".toList) ∧
        (paletteLines rgb1555 pal2 pal_len)[j]?
          = some (paletteLineHead (rgb1555 e1.r e1.g e1.b) j e1.r e1.g e1.b ++
              fmt_u e2.a ++ ")\n".toList)) := by
  have hlen2 : pal_len ≤ pal2.entries.length := by omega
  have hagree : ∀ j, j < pal_len →
      (pal1.entry j).r = (pal2.entry j).r ∧ (pal1.entry j).g = (pal2.entry j).g ∧
        (pal1.entry j).b = (pal2.entry j).b := by
    intro j hj
    exact hrgb j _ _ (entries_getElem?_entry pal1 j (by omega))
      (entries_getElem?_entry pal2 j (by omega))
  refine ⟨?_, ?_, ?_, ?_, ?_, ?_, ?_⟩
  · unfold c_print_palette
    simp only [fprintf_c_streams]
    rw [forUpTo_fprintf_c]
    simp [paletteLines, paletteLine]
  · unfold c_print_palette
    simp only [fprintf_c_streams]
    rw [forUpTo_fprintf_c]
    simp [paletteLines, paletteLine]
  · rw [arrayElements_palette, arrayElements_palette]
    congr 1
    apply List.map_congr_left
    intro j hj
    obtain ⟨hr, hg, hb⟩ := hagree j (List.mem_range.mp hj)
    rw [hr, hg, hb]
  · rw [arrayElements_palette]
    exact congrArg some (range_map_entry pal1 pal_len hlen fun e => rgb1555 e.r e.g e.b)
  · simp [paletteLines]
  · simp [paletteLines]
  · intro j hj
    obtain ⟨hr, hg, hb⟩ := hagree j hj
    refine ⟨pal1.entry j, pal2.entry j, entries_getElem?_entry pal1 j (by omega),
      entries_getElem?_entry pal2 j (by omega), ?_, ?_⟩
    · simp [paletteLines, List.getElem?_map, List.getElem?_range hj, paletteLine_eq_head]
    · simp [paletteLines, List.getElem?_map, List.getElem?_range hj, paletteLine_eq_head,
        hr, hg, hb]

theorem scenarioPalette_agree (j : Nat) (e1 e2 : liq_color)
    (h1 : scenarioPalette.entries[j]? = some e1)
    (h2 : scenarioPaletteOpaque.entries[j]? = some e2) :
    e1.r = e2.r ∧ e1.g = e2.g ∧ e1.b = e2.b := by
  match j with
  | 0 =>
    cases h1
    cases h2
    decide
  | 1 =>
    cases h1
    cases h2
    decide
  | j + 2 => cases h1

/-- Witness of C18: `c_print_palette` on the scenario palette and on the same
colours at full alpha writes the same values `0xF800` and `0x07C0`; only the
alpha in the comment of entry 1 differs. -/
theorem palette_alpha_independent_witness :
    (scenarioPalette.entries.length = scenarioPaletteOpaque.entries.length
        ∧ 2 ≤ scenarioPalette.entries.length)
      ∧ c_print_palette (rgb1555 fun _ _ _ => 0) (streams [] []) "gfx".toList
          scenarioPalette 2
        = streams ("uint16_t gfx_pal[2] = \x7b\n".toList ++
            " 0xF800,  // 00 :: rgba(255,0,0,255)\n".toList ++
            " 0x07C0,  // 01 :: rgba(0,255,0,0)\n".toList ++ "\x7d;".toList) []
      ∧ c_print_palette (rgb1555 fun _ _ _ => 0) (streams [] []) "gfx".toList
          scenarioPaletteOpaque 2
        = streams ("uint16_t gfx_pal[2] = \x7b\n".toList ++
            " 0xF800,  // 00 :: rgba(255,0,0,255)\n".toList ++
            " 0x07C0,  // 01 :: rgba(0,255,0,255)\n".toList ++ "\x7d;".toList) []
      ∧ arrayElements ("\n".toList ++
          (paletteLines (rgb1555 fun _ _ _ => 0) scenarioPalette 2).flatten ++ "\x7d;".toList)
        = arrayElements ("\n".toList ++
          (paletteLines (rgb1555 fun _ _ _ => 0) scenarioPaletteOpaque 2).flatten ++
            "\x7d;".toList) :=
  ⟨by decide, by decide, by decide,
    (palette_alpha_independent (rgb1555 fun _ _ _ => 0) [] [] "gfx".toList scenarioPalette
      scenarioPaletteOpaque 2 (by decide) (by decide) scenarioPalette_agree).2.2.1⟩

/-! ## Array-literal well-formedness -/

theorem isIdentifier_count (t : Text) (h : isIdentifier t = true) (c : Char)
    (hc : isIdentChar c = false) : t.count c = 0 := by
  rw [List.count_eq_zero]
  intro hmem
  cases t with
  | nil => simp at hmem
  | cons a t =>
    simp only [isIdentifier, Bool.and_eq_true, List.all_eq_true] at h
    have := h.2 c hmem
    rw [hc] at this
    exact Bool.noConfusion this

theorem fmtNat_count_other (b : Nat) (hb : 2 ≤ b) (hb16 : b ≤ 16) (c : Char)
    (hc : ∀ d, d < 16 → digitChar d ≠ c) (n : Nat) : (fmtNat b n).count c = 0 := by
  rw [List.count_eq_zero]
  intro hmem
  obtain ⟨d, hd, he⟩ := fmtNat_mem b hb n _ hmem
  exact hc d (by omega) he.symm

theorem zeroPad_count_other (w : Nat) (s : Text) (c : Char) (hc : c ≠ '0')
    (h : s.count c = 0) : (zeroPad w s).count c = 0 := by
  have h0 : ¬ ('0' = c) := fun e => hc e.symm
  simp [zeroPad, List.count_append, h, List.count_replicate, h0]

theorem digitChar_ne_lbrace : ∀ d, d < 16 → digitChar d ≠ '\x7b' := by decide

theorem digitChar_ne_rbrace : ∀ d, d < 16 → digitChar d ≠ '\x7d' := by decide

theorem fmt_u_count_lbrace (n : Nat) : (fmt_u n).count '\x7b' = 0 :=
  fmtNat_count_other 10 (by omega) (by omega) _ digitChar_ne_lbrace n

theorem fmt_u_count_rbrace (n : Nat) : (fmt_u n).count '\x7d' = 0 :=
  fmtNat_count_other 10 (by omega) (by omega) _ digitChar_ne_rbrace n

theorem fmt_02X_count_lbrace (n : Nat) : (fmt_02X n).count '\x7b' = 0 :=
  zeroPad_count_other 2 _ _ (by decide)
    (fmtNat_count_other 16 (by omega) (by omega) _ digitChar_ne_lbrace n)

theorem fmt_02X_count_rbrace (n : Nat) : (fmt_02X n).count '\x7d' = 0 :=
  zeroPad_count_other 2 _ _ (by decide)
    (fmtNat_count_other 16 (by omega) (by omega) _ digitChar_ne_rbrace n)

/-- A byte is rendered by `%02X` as exactly two digits. -/
theorem fmt_02X_digits (b : Nat) (hb : b < 256) :
    fmt_02X b = [digitChar (b / 16), digitChar (b % 16)] := by
  have hz : digitChar 0 = '0' := by decide
  unfold fmt_02X
  by_cases h1 : b < 16
  · have a1 : b / 16 = 0 := by omega
    have a2 : b % 16 = b := by omega
    rw [fmtNat_lt 16 b h1, a1, a2, hz]
    rfl
  · rw [fmtNat_ge 16 b (by omega) (by omega), fmtNat_lt 16 (b / 16) (by omega)]
    rfl

/-- The calls made while an array is open write no brace. -/
theorem runArrayCalls_braces (th : Text) (calls : List ArrayCall) :
    ∀ tc : Text, ∃ body : Text,
      runArrayCalls (streams tc th) calls = streams (tc ++ body) th ∧
      body.count '\x7b' = 0 ∧ body.count '\x7d' = 0 := by
  induction calls with
  | nil =>
    intro tc
    exact ⟨[], by simp [runArrayCalls], by simp, by simp⟩
  | cons call calls ih =>
    intro tc
    cases call with
    | byte b need_comma =>
      obtain ⟨body, hrun, h1, h2⟩ := ih (tc ++ ("0x".toList ++ fmt_02X b ++ ",".toList))
      refine ⟨("0x".toList ++ fmt_02X b ++ ",".toList) ++ body, ?_, ?_, ?_⟩
      · have h : runArrayCalls (streams tc th) (ArrayCall.byte b need_comma :: calls)
            = runArrayCalls (streams (tc ++ ("0x".toList ++ fmt_02X b ++ ",".toList)) th)
                calls := by
          simp [runArrayCalls, ArrayCall.run, c_print_byte]
        rw [h, hrun, List.append_assoc]
      · simp [List.count_append, List.count_cons, h1, fmt_02X_count_lbrace]
      · simp [List.count_append, List.count_cons, h2, fmt_02X_count_rbrace]
    | next_line =>
      obtain ⟨body, hrun, h1, h2⟩ := ih (tc ++ "\n ".toList)
      refine ⟨"\n ".toList ++ body, ?_, ?_, ?_⟩
      · have h : runArrayCalls (streams tc th) (ArrayCall.next_line :: calls)
            = runArrayCalls (streams (tc ++ "\n ".toList) th) calls := by
          simp [runArrayCalls, ArrayCall.run, c_print_next_array_line]
        rw [h, hrun, List.append_assoc]
      · simp [List.count_append, List.count_cons, h1]
      · simp [List.count_append, List.count_cons, h2]

/-- An opener that writes `pre`, the opening brace and `fr`, then the calls
and the closing call: the text written is `pre`, the one opening brace, a body
and the one closer, with no brace in `pre` or in the body. -/
theorem closed_array_braces (tc th pre fr : Text) (calls : List ArrayCall)
    (hpre1 : pre.count '\x7b' = 0) (hpre2 : pre.count '\x7d' = 0)
    (hfr1 : fr.count '\x7b' = 0) (hfr2 : fr.count '\x7d' = 0) :
    ∃ body : Text,
      c_print_next_array_line
          (runArrayCalls (streams (tc ++ (pre ++ "\x7b".toList ++ fr)) th) calls) true
        = streams (tc ++ (pre ++ "\x7b".toList ++ body ++ "\x7d;\n".toList)) th ∧
      pre.count '\x7b' = 0 ∧ pre.count '\x7d' = 0 ∧
      body.count '\x7b' = 0 ∧ body.count '\x7d' = 0 := by
  obtain ⟨b, hrun, h1, h2⟩ := runArrayCalls_braces th calls (tc ++ (pre ++ "\x7b".toList ++ fr))
  refine ⟨fr ++ b ++ "\n".toList, ?_, hpre1, hpre2, ?_, ?_⟩
  · rw [hrun]
    simp [c_print_next_array_line]
  · simp [List.count_append, List.count_cons, hfr1, h1]
  · simp [List.count_append, List.count_cons, hfr2, h2]

theorem closed_array_one_pair (tc th pre fr : Text) (calls : List ArrayCall)
    (hpre1 : pre.count '\x7b' = 0) (hpre2 : pre.count '\x7d' = 0)
    (hfr1 : fr.count '\x7b' = 0) (hfr2 : fr.count '\x7d' = 0) :
    ∃ w front : Text,
      c_print_next_array_line
          (runArrayCalls (streams (tc ++ (pre ++ "\x7b".toList ++ fr)) th) calls) true
        = streams (tc ++ w) th ∧
      w.count '\x7b' = 1 ∧ w.count '\x7d' = 1 ∧ w = front ++ "\x7d;\n".toList ∧
      front.count '\x7d' = 0 := by
  obtain ⟨body, hrun, h1, h2, h3, h4⟩ :=
    closed_array_braces tc th pre fr calls hpre1 hpre2 hfr1 hfr2
  refine ⟨pre ++ "\x7b".toList ++ body ++ "\x7d;\n".toList, pre ++ "\x7b".toList ++ body,
    hrun, ?_, ?_, rfl, ?_⟩
  · simp [List.count_append, List.count_cons, h1, h3]
  · simp [List.count_append, List.count_cons, h2, h4]
  · simp [List.count_append, List.count_cons, h2, h4]

theorem c_print_image_one_pair (tc th i_name : Text) (bpp size width height : Nat)
    (calls : List ArrayCall) (hname : isIdentifier i_name = true) :
    ∃ w front : Text,
      c_print_next_array_line
          (runArrayCalls (c_print_image (streams tc th) bpp i_name size width height) calls)
          true = streams (tc ++ w) th ∧
      w.count '\x7b' = 1 ∧ w.count '\x7d' = 1 ∧ w = front ++ "\x7d;\n".toList ∧
      front.count '\x7d' = 0 := by
  have hn1 : i_name.count '\x7b' = 0 := isIdentifier_count i_name hname _ (by decide)
  have hn2 : i_name.count '\x7d' = 0 := isIdentifier_count i_name hname _ (by decide)
  have e : c_print_image (streams tc th) bpp i_name size width height
      = streams (tc ++ (("// ".toList ++ fmt_u bpp ++ " bpp image\nuint8_t ".toList ++
          i_name ++ "_data[".toList ++ fmt_u size ++ "] = ".toList) ++ "\x7b".toList ++
          ("\n ".toList ++ fmt_u width ++ ",".toList ++ fmt_u height ++
            ",  // width,height\n ".toList))) th := by
    simp [c_print_image]
  rw [e]
  exact closed_array_one_pair tc th
    ("// ".toList ++ fmt_u bpp ++ " bpp image\nuint8_t ".toList ++
          i_name ++ "_data[".toList ++ fmt_u size ++ "] = ".toList)
    ("\n ".toList ++ fmt_u width ++ ",".toList ++ fmt_u height ++
            ",  // width,height\n ".toList) calls
    (by simp [List.count_append, List.count_cons, hn1, hn2, fmt_u_count_lbrace,
      fmt_u_count_rbrace])
    (by simp [List.count_append, List.count_cons, hn1, hn2, fmt_u_count_lbrace,
      fmt_u_count_rbrace])
    (by simp [List.count_append, List.count_cons, hn1, hn2, fmt_u_count_lbrace,
      fmt_u_count_rbrace])
    (by simp [List.count_append, List.count_cons, hn1, hn2, fmt_u_count_lbrace,
      fmt_u_count_rbrace])

theorem c_print_compressed_image_one_pair (tc th i_name : Text) (bpp size : Nat)
    (calls : List ArrayCall) (hname : isIdentifier i_name = true) :
    ∃ w front : Text,
      c_print_next_array_line
          (runArrayCalls (c_print_compressed_image (streams tc th) bpp i_name size) calls)
          true = streams (tc ++ w) th ∧
      w.count '\x7b' = 1 ∧ w.count '\x7d' = 1 ∧ w = front ++ "\x7d;\n".toList ∧
      front.count '\x7d' = 0 := by
  have hn1 : i_name.count '\x7b' = 0 := isIdentifier_count i_name hname _ (by decide)
  have hn2 : i_name.count '\x7d' = 0 := isIdentifier_count i_name hname _ (by decide)
  have e : c_print_compressed_image (streams tc th) bpp i_name size
      = streams (tc ++ (("// ".toList ++ fmt_u bpp ++ " bpp image\nuint8_t ".toList ++
          i_name ++ "_compressed[".toList ++ fmt_u size ++ "] = ".toList) ++ "\x7b".toList ++
          ("\n ".toList))) th := by
    simp [c_print_compressed_image]
  rw [e]
  exact closed_array_one_pair tc th
    ("// ".toList ++ fmt_u bpp ++ " bpp image\nuint8_t ".toList ++
          i_name ++ "_compressed[".toList ++ fmt_u size ++ "] = ".toList)
    ("\n ".toList) calls
    (by simp [List.count_append, List.count_cons, hn1, hn2, fmt_u_count_lbrace,
      fmt_u_count_rbrace])
    (by simp [List.count_append, List.count_cons, hn1, hn2, fmt_u_count_lbrace,
      fmt_u_count_rbrace])
    (by simp [List.count_append, List.count_cons, hn1, hn2, fmt_u_count_lbrace,
      fmt_u_count_rbrace])
    (by simp [List.count_append, List.count_cons, hn1, hn2, fmt_u_count_lbrace,
      fmt_u_count_rbrace])

theorem c_print_tile_one_pair (tc th i_name : Text) (tile_num size width height : Nat)
    (calls : List ArrayCall) (hname : isIdentifier i_name = true) :
    ∃ w front : Text,
      c_print_next_array_line
          (runArrayCalls (c_print_tile (streams tc th) i_name tile_num size width height) calls)
          true = streams (tc ++ w) th ∧
      w.count '\x7b' = 1 ∧ w.count '\x7d' = 1 ∧ w = front ++ "\x7d;\n".toList ∧
      front.count '\x7d' = 0 := by
  have hn1 : i_name.count '\x7b' = 0 := isIdentifier_count i_name hname _ (by decide)
  have hn2 : i_name.count '\x7d' = 0 := isIdentifier_count i_name hname _ (by decide)
  have e : c_print_tile (streams tc th) i_name tile_num size width height
      = streams (tc ++ (("uint8_t ".toList ++ i_name ++ "_tile_".toList ++
          fmt_u tile_num ++ "_data[".toList ++ fmt_u size ++ "] = ".toList) ++ "\x7b".toList ++
          ("\n ".toList ++ fmt_u width ++ ",\t// tile_width\n ".toList ++ fmt_u height ++
            ",\t// tile_height\n ".toList))) th := by
    simp [c_print_tile]
  rw [e]
  exact closed_array_one_pair tc th
    ("uint8_t ".toList ++ i_name ++ "_tile_".toList ++
          fmt_u tile_num ++ "_data[".toList ++ fmt_u size ++ "] = ".toList)
    ("\n ".toList ++ fmt_u width ++ ",\t// tile_width\n ".toList ++ fmt_u height ++
            ",\t// tile_height\n ".toList) calls
    (by simp [List.count_append, List.count_cons, hn1, hn2, fmt_u_count_lbrace,
      fmt_u_count_rbrace])
    (by simp [List.count_append, List.count_cons, hn1, hn2, fmt_u_count_lbrace,
      fmt_u_count_rbrace])
    (by simp [List.count_append, List.count_cons, hn1, hn2, fmt_u_count_lbrace,
      fmt_u_count_rbrace])
    (by simp [List.count_append, List.count_cons, hn1, hn2, fmt_u_count_lbrace,
      fmt_u_count_rbrace])

theorem c_print_compressed_tile_one_pair (tc th i_name : Text) (tile_num size : Nat)
    (calls : List ArrayCall) (hname : isIdentifier i_name = true) :
    ∃ w front : Text,
      c_print_next_array_line
          (runArrayCalls (c_print_compressed_tile (streams tc th) i_name tile_num size) calls)
          true = streams (tc ++ w) th ∧
      w.count '\x7b' = 1 ∧ w.count '\x7d' = 1 ∧ w = front ++ "\x7d;\n".toList ∧
      front.count '\x7d' = 0 := by
  have hn1 : i_name.count '\x7b' = 0 := isIdentifier_count i_name hname _ (by decide)
  have hn2 : i_name.count '\x7d' = 0 := isIdentifier_count i_name hname _ (by decide)
  have e : c_print_compressed_tile (streams tc th) i_name tile_num size
      = streams (tc ++ (("uint8_t ".toList ++ i_name ++ "_tile_".toList ++
          fmt_u tile_num ++ "_compressed[".toList ++ fmt_u size ++ "] = ".toList) ++ "\x7b".toList ++
          ("\n".toList))) th := by
    simp [c_print_compressed_tile]
  rw [e]
  exact closed_array_one_pair tc th
    ("uint8_t ".toList ++ i_name ++ "_tile_".toList ++
          fmt_u tile_num ++ "_compressed[".toList ++ fmt_u size ++ "] = ".toList)
    ("\n".toList) calls
    (by simp [List.count_append, List.count_cons, hn1, hn2, fmt_u_count_lbrace,
      fmt_u_count_rbrace])
    (by simp [List.count_append, List.count_cons, hn1, hn2, fmt_u_count_lbrace,
      fmt_u_count_rbrace])
    (by simp [List.count_append, List.count_cons, hn1, hn2, fmt_u_count_lbrace,
      fmt_u_count_rbrace])
    (by simp [List.count_append, List.count_cons, hn1, hn2, fmt_u_count_lbrace,
      fmt_u_count_rbrace])

/-- Claim C16. `c_print_byte` writes exactly the five characters `0xHH,` for
every byte, whatever `need_comma` is, and no closing brace;
`c_print_next_array_line` writes the closer `};` when `at_end` is true and
only a line break and a blank otherwise. Hence, for an identifier name, after
any of the four openers, any sequence of `c_print_byte` and
`c_print_next_array_line(false)` calls and one final
`c_print_next_array_line(true)`, the text written holds exactly one opening
brace and exactly one closing brace, that of the closer `};` which ends it. -/
theorem array_literal_well_formed (tc th i_name : Text)
    (bpp size width height tile_num byte : Nat) (need_comma other_comma : Bool)
    (calls : List ArrayCall) (hname : isIdentifier i_name = true) (hbyte : byte < 256) :
    (c_print_byte (streams tc th) byte need_comma
        = streams (tc ++ ['0', 'x', digitChar (byte / 16), digitChar (byte % 16), ',']) th
      ∧ c_print_byte (streams tc th) byte other_comma
        = c_print_byte (streams tc th) byte need_comma
      ∧ ['0', 'x', digitChar (byte / 16), digitChar (byte % 16), ','].count '\x7d' = 0)
    ∧ (c_print_next_array_line (streams tc th) true = streams (tc ++ "\n\x7d;\n".toList) th
      ∧ c_print_next_array_line (streams tc th) false = streams (tc ++ "\n ".toList) th)
    ∧ (∃ w front : Text,
        c_print_next_array_line
            (runArrayCalls (c_print_image (streams tc th) bpp i_name size width height) calls)
            true = streams (tc ++ w) th ∧
        w.count '\x7b' = 1 ∧ w.count '\x7d' = 1 ∧ w = front ++ "\x7d;\n".toList ∧
        front.count '\x7d' = 0)
    ∧ (∃ w front : Text,
        c_print_next_array_line
            (runArrayCalls (c_print_compressed_image (streams tc th) bpp i_name size) calls)
            true = streams (tc ++ w) th ∧
        w.count '\x7b' = 1 ∧ w.count '\x7d' = 1 ∧ w = front ++ "\x7d;\n".toList ∧
        front.count '\x7d' = 0)
    ∧ (∃ w front : Text,
        c_print_next_array_line
            (runArrayCalls
              (c_print_tile (streams tc th) i_name tile_num size width height) calls)
            true = streams (tc ++ w) th ∧
        w.count '\x7b' = 1 ∧ w.count '\x7d' = 1 ∧ w = front ++ "\x7d;\n".toList ∧
        front.count '\x7d' = 0)
    ∧ (∃ w front : Text,
        c_print_next_array_line
            (runArrayCalls
              (c_print_compressed_tile (streams tc th) i_name tile_num size) calls)
            true = streams (tc ++ w) th ∧
        w.count '\x7b' = 1 ∧ w.count '\x7d' = 1 ∧ w = front ++ "\x7d;\n".toList ∧
        front.count '\x7d' = 0) := by
  have hd1 := digitChar_ne_rbrace (byte / 16) (by omega)
  have hd2 := digitChar_ne_rbrace (byte % 16) (by omega)
  refine ⟨⟨?_, ?_, ?_⟩, ⟨?_, ?_⟩, ?_, ?_, ?_, ?_⟩
  · simp [c_print_byte, fmt_02X_digits byte hbyte]
  · simp [c_print_byte]
  · simp [List.count_cons, hd1, hd2]
  · simp [c_print_next_array_line]
  · simp [c_print_next_array_line]
  · exact c_print_image_one_pair tc th i_name bpp size width height calls hname
  · exact c_print_compressed_image_one_pair tc th i_name bpp size calls hname
  · exact c_print_tile_one_pair tc th i_name tile_num size width height calls hname
  · exact c_print_compressed_tile_one_pair tc th i_name tile_num size calls hname

/-- Witness of C16: the name `img` and the byte `0xAB`. -/
theorem array_literal_well_formed_witness :
    (isIdentifier "img".toList = true ∧ 171 < 256)
      ∧ c_print_byte (streams [] []) 171 true = streams "0xAB,".toList []
      ∧ c_print_byte (streams [] []) 171 false = c_print_byte (streams [] []) 171 true :=
  ⟨by decide,
    (array_literal_well_formed [] [] "img".toList 8 66 8 8 0 171 true false scenarioCalls
      (by decide) (by decide)).1.1.trans (by decide),
    (array_literal_well_formed [] [] "img".toList 8 66 8 8 0 171 true false scenarioCalls
      (by decide) (by decide)).1.2.1⟩

/-! ## Include guard -/

theorem linesAux_line (l : Text) (h : l.count '\n' = 0) :
    ∀ (cur rest : Text),
      linesAux cur (l ++ '\n' :: rest) = (cur ++ l) :: linesAux [] rest := by
  induction l with
  | nil =>
    intro cur rest
    simp [linesAux]
  | cons c l ih =>
    intro cur rest
    have hc : c ≠ '\n' := by
      intro hc
      subst hc
      simp at h
    have hl : l.count '\n' = 0 := by
      rw [List.count_cons] at h
      omega
    have step : linesAux cur (c :: (l ++ '\n' :: rest))
        = linesAux (cur ++ [c]) (l ++ '\n' :: rest) := by
      simp [linesAux, hc]
    rw [List.cons_append, step, ih hl]
    simp

/-- Lines joined with line ends split back into the same lines. -/
theorem linesOf_joinLines (ls : List Text) (h : ∀ l ∈ ls, l.count '\n' = 0) :
    linesOf (joinLines ls) = ls := by
  unfold linesOf
  induction ls with
  | nil => simp [joinLines, linesAux]
  | cons l ls ih =>
    have e : joinLines (l :: ls) = l ++ '\n' :: joinLines ls := by
      simp [joinLines]
    rw [e, linesAux_line l (h l (List.mem_cons_self _ _)),
      ih (fun l hl => h l (List.mem_cons_of_mem _ hl))]
    simp

theorem joinLines_append (a b : List Text) :
    joinLines (a ++ b) = joinLines a ++ joinLines b := by
  simp [joinLines]

theorem LineBlock_nil : LineBlock [] := ⟨[], by simp [joinLines], by simp⟩

theorem LineBlock_append (a b : Text) (ha : LineBlock a) (hb : LineBlock b) :
    LineBlock (a ++ b) := by
  obtain ⟨la, ea, pa⟩ := ha
  obtain ⟨lb, eb, pb⟩ := hb
  refine ⟨la ++ lb, by rw [joinLines_append, ea, eb], ?_⟩
  intro l hl
  rcases List.mem_append.mp hl with h | h
  · exact pa l h
  · exact pb l h

theorem LineBlock_line (l : Text) (h : PlainLine l) : LineBlock (l ++ "\n".toList) :=
  ⟨[l], by simp [joinLines], by simpa using h⟩

theorem LineBlock_flatten (xs : List Nat) (f : Nat → Text) (h : ∀ i, LineBlock (f i)) :
    LineBlock (xs.map f).flatten := by
  induction xs with
  | nil => simpa using LineBlock_nil
  | cons x xs ih =>
    rw [List.map_cons, List.flatten_cons]
    exact LineBlock_append _ _ (h x) ih

theorem PlainLine_empty : PlainLine [] := by
  simp [PlainLine, List.isPrefixOf]

theorem fmt_u_count_newline (n : Nat) : (fmt_u n).count '\n' = 0 :=
  fmtNat_count_newline 10 (by omega) (by omega) n

theorem isIdentifier_count_newline (t : Text) (h : isIdentifier t = true) :
    t.count '\n' = 0 :=
  isIdentifier_count t h _ (by decide)

theorem PlainLine_define (rest : Text) (h : rest.count '\n' = 0) :
    PlainLine ("#define ".toList ++ rest) := by
  refine ⟨?_, ?_, ?_⟩
  · simp [List.count_append, List.count_cons, h]
  · simp [List.isPrefixOf]
  · simp [List.isPrefixOf]

theorem PlainLine_extern_line (rest : Text) (h : rest.count '\n' = 0) :
    PlainLine ("extern ".toList ++ rest) := by
  refine ⟨?_, ?_, ?_⟩
  · simp [List.count_append, List.count_cons, h]
  · simp [List.isPrefixOf]
  · simp [List.isPrefixOf]

theorem PlainLine_bool (rest : Text) (h : rest.count '\n' = 0) :
    PlainLine ("bool ".toList ++ rest) := by
  refine ⟨?_, ?_, ?_⟩
  · simp [List.count_append, List.count_cons, h]
  · simp [List.isPrefixOf]
  · simp [List.isPrefixOf]

theorem PlainLine_include : PlainLine "#include <stdbool.h>".toList := by
  refine ⟨?_, ?_, ?_⟩ <;> decide

/-- One `#define` line is a block of plain lines. -/
theorem LineBlock_define (rest : Text) (h : rest.count '\n' = 0) :
    LineBlock ("#define ".toList ++ rest ++ "\n".toList) :=
  LineBlock_line _ (PlainLine_define rest h)

/-- One `extern` line is a block of plain lines. -/
theorem LineBlock_extern_line (rest : Text) (h : rest.count '\n' = 0) :
    LineBlock ("extern ".toList ++ rest ++ "\n".toList) :=
  LineBlock_line _ (PlainLine_extern_line rest h)

theorem LineBlock_empty_line : LineBlock "\n".toList := by
  have h := LineBlock_line [] PlainLine_empty
  simpa using h

theorem c_print_transparent_index_block (group_name : Text) (index : Nat)
    (hname : isIdentifier group_name = true) (tc th : Text) :
    ∃ tc' t, c_print_transparent_index (streams tc th) group_name index
      = streams tc' (th ++ t) ∧ LineBlock t := by
  have hn := isIdentifier_count_newline group_name hname
  refine ⟨tc, ("#define ".toList ++ (group_name ++ "_transparent_color_index ".toList ++
    fmt_u index) ++ "\n".toList) ++ "\n".toList, by simp [c_print_transparent_index], ?_⟩
  exact LineBlock_append _ _
    (LineBlock_define _ (by simp [List.count_append, List.count_cons, hn, fmt_u_count_newline]))
    LineBlock_empty_line

theorem c_print_image_header_block (i_name : Text) (size : Nat) (compressed : Bool)
    (hname : isIdentifier i_name = true) (tc th : Text) :
    ∃ tc' t, c_print_image_header (streams tc th) i_name size compressed
      = streams tc' (th ++ t) ∧ LineBlock t := by
  have hn := isIdentifier_count_newline i_name hname
  cases compressed
  · refine ⟨tc, ("extern ".toList ++ ("uint8_t ".toList ++ i_name ++ "_data[".toList ++
        fmt_u size ++ "];".toList) ++ "\n".toList) ++
      ("#define ".toList ++ (i_name ++ " ((gfx_image_t*)".toList ++ i_name ++
        "_data)".toList) ++ "\n".toList), by simp [c_print_image_header], ?_⟩
    exact LineBlock_append _ _
      (LineBlock_extern_line _
        (by simp [List.count_append, List.count_cons, hn, fmt_u_count_newline]))
      (LineBlock_define _ (by simp [List.count_append, List.count_cons, hn]))
  · refine ⟨tc, "extern ".toList ++ ("uint8_t ".toList ++ i_name ++ "_compressed[".toList ++
        fmt_u size ++ "];".toList) ++ "\n".toList, by simp [c_print_image_header], ?_⟩
    exact LineBlock_extern_line _
      (by simp [List.count_append, List.count_cons, hn, fmt_u_count_newline])

theorem c_print_transparent_image_header_block (i_name : Text) (size : Nat)
    (compressed : Bool) (hname : isIdentifier i_name = true) (tc th : Text) :
    ∃ tc' t, c_print_transparent_image_header (streams tc th) i_name size compressed
      = streams tc' (th ++ t) ∧ LineBlock t := by
  have hn := isIdentifier_count_newline i_name hname
  cases compressed
  · refine ⟨tc, ("extern ".toList ++ ("uint8_t ".toList ++ i_name ++ "_data[".toList ++
        fmt_u size ++ "];".toList) ++ "\n".toList) ++
      ("#define ".toList ++ (i_name ++ " ((gfx_timage_t*)".toList ++ i_name ++
        "_data)".toList) ++ "\n".toList), by simp [c_print_transparent_image_header], ?_⟩
    exact LineBlock_append _ _
      (LineBlock_extern_line _
        (by simp [List.count_append, List.count_cons, hn, fmt_u_count_newline]))
      (LineBlock_define _ (by simp [List.count_append, List.count_cons, hn]))
  · refine ⟨tc, "extern ".toList ++ ("uint8_t ".toList ++ i_name ++ "_compressed[".toList ++
        fmt_u size ++ "];".toList) ++ "\n".toList,
      by simp [c_print_transparent_image_header], ?_⟩
    exact LineBlock_extern_line _
      (by simp [List.count_append, List.count_cons, hn, fmt_u_count_newline])

theorem c_print_palette_header_block (name : Text) (len : Nat)
    (hname : isIdentifier name = true) (tc th : Text) :
    ∃ tc' t, c_print_palette_header (streams tc th) name len
      = streams tc' (th ++ t) ∧ LineBlock t := by
  have hn := isIdentifier_count_newline name hname
  refine ⟨tc, ("#define ".toList ++ ("sizeof_".toList ++ name ++ "_pal ".toList ++
      fmt_u (len * 2 % 2 ^ 32)) ++ "\n".toList) ++
    ("extern ".toList ++ ("uint16_t ".toList ++ name ++ "_pal[".toList ++ fmt_u len ++
      "];".toList) ++ "\n".toList), by simp [c_print_palette_header], ?_⟩
  exact LineBlock_append _ _
    (LineBlock_define _ (by simp [List.count_append, List.count_cons, hn, fmt_u_count_newline]))
    (LineBlock_extern_line _ (by simp [List.count_append, List.count_cons, hn, fmt_u_count_newline]))

theorem c_print_appvar_palette_header_block (p_name a_name : Text) (index len : Nat)
    (hp : isIdentifier p_name = true) (ha : isIdentifier a_name = true) (tc th : Text) :
    ∃ tc' t, c_print_appvar_palette_header (streams tc th) p_name a_name index len
      = streams tc' (th ++ t) ∧ LineBlock t := by
  have hnp := isIdentifier_count_newline p_name hp
  have hna := isIdentifier_count_newline a_name ha
  refine ⟨tc, ("#define ".toList ++ ("sizeof_".toList ++ p_name ++ "_pal ".toList ++
      fmt_u (len * 2 % 2 ^ 32)) ++ "\n".toList) ++
    ("#define ".toList ++ (p_name ++ "_pal ((uint16_t*)".toList ++ a_name ++ "[".toList ++
      fmt_u index ++ "])".toList) ++ "\n".toList),
    by simp [c_print_appvar_palette_header], ?_⟩
  exact LineBlock_append _ _
    (LineBlock_define _
      (by simp [List.count_append, List.count_cons, hnp, fmt_u_count_newline]))
    (LineBlock_define _
      (by simp [List.count_append, List.count_cons, hnp, hna, fmt_u_count_newline]))

theorem c_print_tiles_ptrs_header_block (i_name : Text) (num_tiles : Nat) (compressed : Bool)
    (hname : isIdentifier i_name = true) (tc th : Text) :
    ∃ tc' t, c_print_tiles_ptrs_header (streams tc th) i_name num_tiles compressed
      = streams tc' (th ++ t) ∧ LineBlock t := by
  have hn := isIdentifier_count_newline i_name hname
  cases compressed
  · refine ⟨tc, ("extern ".toList ++ ("uint8_t *".toList ++ i_name ++ "_tiles_data[".toList ++
        fmt_u num_tiles ++ "];".toList) ++ "\n".toList) ++
      ("#define ".toList ++ (i_name ++ "_tiles ((gfx_image_t**)".toList ++ i_name ++
        "_tiles_data)".toList) ++ "\n".toList), by simp [c_print_tiles_ptrs_header], ?_⟩
    exact LineBlock_append _ _
      (LineBlock_extern_line _
        (by simp [List.count_append, List.count_cons, hn, fmt_u_count_newline]))
      (LineBlock_define _ (by simp [List.count_append, List.count_cons, hn]))
  · refine ⟨tc, "extern ".toList ++ ("uint8_t *".toList ++ i_name ++
        "_tiles_compressed[".toList ++ fmt_u num_tiles ++ "];".toList) ++ "\n".toList,
      by simp [c_print_tiles_ptrs_header], ?_⟩
    exact LineBlock_extern_line _
      (by simp [List.count_append, List.count_cons, hn, fmt_u_count_newline])

theorem c_print_tiles_header_block (i_name : Text) (num_tiles : Nat) (compressed : Bool)
    (hname : isIdentifier i_name = true) (tc th : Text) :
    ∃ tc' t, c_print_tiles_header (streams tc th) i_name num_tiles compressed
      = streams tc' (th ++ t) ∧ LineBlock t := by
  have hn := isIdentifier_count_newline i_name hname
  cases compressed
  · refine ⟨tc, ((List.range num_tiles).map fun i =>
        ("extern ".toList ++ ("uint8_t ".toList ++ i_name ++ "_tile_".toList ++ fmt_u i ++
          "_data[];".toList) ++ "\n".toList) ++
        ("#define ".toList ++ (i_name ++ "_tile_".toList ++ fmt_u i ++
          " ((gfx_image_t*)".toList ++ i_name ++ "_tile_".toList ++ fmt_u i ++
          "_data)".toList) ++ "\n".toList)).flatten, ?_, ?_⟩
    · simp only [c_print_tiles_header, Bool.false_eq_true, if_false]
      apply forUpTo_streams_h
      intro i tc th
      simp
    · apply LineBlock_flatten
      intro i
      exact LineBlock_append _ _
        (LineBlock_extern_line _
          (by simp [List.count_append, List.count_cons, hn, fmt_u_count_newline]))
        (LineBlock_define _
          (by simp [List.count_append, List.count_cons, hn, fmt_u_count_newline]))
  · refine ⟨tc, ((List.range num_tiles).map fun i =>
        "extern ".toList ++ ("uint8_t ".toList ++ i_name ++ "_tile_".toList ++ fmt_u i ++
          "_compressed[];".toList) ++ "\n".toList).flatten, ?_, ?_⟩
    · simp only [c_print_tiles_header, if_true]
      apply forUpTo_streams_h
      intro i tc th
      simp
    · apply LineBlock_flatten
      intro i
      exact LineBlock_extern_line _
        (by simp [List.count_append, List.count_cons, hn, fmt_u_count_newline])

theorem c_print_appvar_array_block (a_name : Text) (num_images : Nat)
    (hname : isIdentifier a_name = true) (tc th : Text) :
    ∃ tc' t, c_print_appvar_array (streams tc th) a_name num_images
      = streams tc' (th ++ t) ∧ LineBlock t := by
  have hn := isIdentifier_count_newline a_name hname
  refine ⟨tc ++ ("uint8_t *".toList ++ a_name ++ "[".toList ++ fmt_u num_images ++
      "] = \x7b\n ".toList),
    ("#include <stdbool.h>".toList ++ "\n".toList) ++ ("\n".toList ++
      (("#define ".toList ++ (a_name ++ "_num ".toList ++ fmt_u num_images) ++ "\n".toList) ++
      ("\n".toList ++
      ("extern ".toList ++ ("uint8_t *".toList ++ a_name ++ "[".toList ++ fmt_u num_images ++
        "];".toList) ++ "\n".toList)))), by simp [c_print_appvar_array], ?_⟩
  exact LineBlock_append _ _ (LineBlock_line _ PlainLine_include)
    (LineBlock_append _ _ LineBlock_empty_line
      (LineBlock_append _ _
        (LineBlock_define _
          (by simp [List.count_append, List.count_cons, hn, fmt_u_count_newline]))
        (LineBlock_append _ _ LineBlock_empty_line
          (LineBlock_extern_line _
            (by simp [List.count_append, List.count_cons, hn, fmt_u_count_newline])))))

theorem c_print_appvar_image_block (a_name : Text) (offset : Nat) (i_name : Text)
    (index : Nat) (compressed tp_style : Bool)
    (ha : isIdentifier a_name = true) (hi : isIdentifier i_name = true) (tc th : Text) :
    ∃ tc' t, c_print_appvar_image (streams tc th) a_name offset i_name index compressed
        tp_style = streams tc' (th ++ t) ∧ LineBlock t := by
  have hna := isIdentifier_count_newline a_name ha
  have hni := isIdentifier_count_newline i_name hi
  cases compressed
  · refine ⟨tc ++ ("(uint8_t*)".toList ++ fmt_u offset ++ ",".toList),
      "#define ".toList ++ (i_name ++ " ((".toList ++
        (if tp_style then "gfx_timage_t".toList else "gfx_image_t".toList) ++ "*)".toList ++
        a_name ++ "[".toList ++ fmt_u index ++ "])".toList) ++ "\n".toList,
      by simp [c_print_appvar_image], ?_⟩
    exact LineBlock_define _
      (by cases tp_style <;>
        simp [List.count_append, List.count_cons, hna, hni, fmt_u_count_newline])
  · refine ⟨tc ++ ("(uint8_t*)".toList ++ fmt_u offset ++ ",".toList),
      "#define ".toList ++ (i_name ++ "_compressed ((".toList ++
        (if tp_style then "gfx_timage_t".toList else "gfx_image_t".toList) ++ "*)".toList ++
        a_name ++ "[".toList ++ fmt_u index ++ "])".toList) ++ "\n".toList,
      by simp [c_print_appvar_image], ?_⟩
    exact LineBlock_define _
      (by cases tp_style <;>
        simp [List.count_append, List.count_cons, hna, hni, fmt_u_count_newline])

theorem c_print_appvar_load_function_block (a_name : Text)
    (hname : isIdentifier a_name = true) (tc th : Text) :
    ∃ tc' t, c_print_appvar_load_function (streams tc th) a_name
      = streams tc' (th ++ t) ∧ LineBlock t := by
  have hn := isIdentifier_count_newline a_name hname
  have e : ∃ tc', c_print_appvar_load_function (streams tc th) a_name
      = streams tc' (th ++ ("\nbool ".toList ++ a_name ++ "_init(void);\n".toList)) := by
    simp only [c_print_appvar_load_function, fprintf_c_streams, fprintf_h_streams]
    exact ⟨_, rfl⟩
  have ht : "\nbool ".toList ++ a_name ++ "_init(void);\n".toList
      = "\n".toList ++
          ("bool ".toList ++ (a_name ++ "_init(void);".toList) ++ "\n".toList) := by
    simp
  obtain ⟨tc', he⟩ := e
  rw [ht] at he
  refine ⟨tc', _, he, ?_⟩
  exact LineBlock_append _ _ LineBlock_empty_line
    (LineBlock_line _ (PlainLine_bool _ (by simp [List.count_append, List.count_cons, hn])))

/-- Every declaration-writing call with identifier names appends a block of
plain lines to the declaration stream. -/
theorem HeaderCall_run_block (call : HeaderCall)
    (hnames : ∀ n ∈ call.names, isIdentifier n = true) (tc th : Text) :
    ∃ tc' t, call.run (streams tc th) = streams tc' (th ++ t) ∧ LineBlock t := by
  cases call with
  | transparent_index group_name index =>
    exact c_print_transparent_index_block group_name index
      (hnames _ (by simp [HeaderCall.names])) tc th
  | tiles_header i_name num_tiles compressed =>
    exact c_print_tiles_header_block i_name num_tiles compressed
      (hnames _ (by simp [HeaderCall.names])) tc th
  | tiles_ptrs_header i_name num_tiles compressed =>
    exact c_print_tiles_ptrs_header_block i_name num_tiles compressed
      (hnames _ (by simp [HeaderCall.names])) tc th
  | image_header i_name size compressed =>
    exact c_print_image_header_block i_name size compressed
      (hnames _ (by simp [HeaderCall.names])) tc th
  | transparent_image_header i_name size compressed =>
    exact c_print_transparent_image_header_block i_name size compressed
      (hnames _ (by simp [HeaderCall.names])) tc th
  | palette_header name len =>
    exact c_print_palette_header_block name len (hnames _ (by simp [HeaderCall.names])) tc th
  | appvar_array a_name num_images =>
    exact c_print_appvar_array_block a_name num_images
      (hnames _ (by simp [HeaderCall.names])) tc th
  | appvar_image a_name offset i_name index compressed tp_style =>
    exact c_print_appvar_image_block a_name offset i_name index compressed tp_style
      (hnames _ (by simp [HeaderCall.names])) (hnames _ (by simp [HeaderCall.names])) tc th
  | appvar_load_function a_name =>
    exact c_print_appvar_load_function_block a_name
      (hnames _ (by simp [HeaderCall.names])) tc th
  | appvar_palette_header p_name a_name index len =>
    exact c_print_appvar_palette_header_block p_name a_name index len
      (hnames _ (by simp [HeaderCall.names])) (hnames _ (by simp [HeaderCall.names])) tc th

theorem runHeaderCalls_block (calls : List HeaderCall)
    (hnames : ∀ call ∈ calls, ∀ n ∈ call.names, isIdentifier n = true) :
    ∀ tc th : Text, ∃ tc' t,
      runHeaderCalls (streams tc th) calls = streams tc' (th ++ t) ∧ LineBlock t := by
  induction calls with
  | nil =>
    intro tc th
    exact ⟨tc, [], by simp [runHeaderCalls], LineBlock_nil⟩
  | cons call calls ih =>
    intro tc th
    obtain ⟨tc1, t1, h1, b1⟩ :=
      HeaderCall_run_block call (hnames call (List.mem_cons_self _ _)) tc th
    obtain ⟨tc2, t2, h2, b2⟩ :=
      ih (fun c hc => hnames c (List.mem_cons_of_mem _ hc)) tc1 (th ++ t1)
    refine ⟨tc2, t1 ++ t2, ?_, LineBlock_append _ _ b1 b2⟩
    have e : runHeaderCalls (streams tc th) (call :: calls)
        = runHeaderCalls (call.run (streams tc th)) calls := rfl
    rw [e, h1, h2, List.append_assoc]

/-- The header prologue as lines. -/
theorem c_print_header_header_lines (tc group_name : Text) :
    c_print_header_header (streams tc []) group_name
      = streams tc (joinLines (prologueLines group_name)) := by
  simp [c_print_header_header, joinLines, prologueLines]

/-- The header epilogue as lines. -/
theorem c_print_end_header_lines (tc th : Text) :
    c_print_end_header (streams tc th)
      = streams tc (th ++ joinLines [[], "#endif".toList]) := by
  simp [c_print_end_header, joinLines]

theorem prologueLines_no_newline (group_name : Text) (hg : isIdentifier group_name = true) :
    ∀ l ∈ prologueLines group_name, l.count '\n' = 0 := by
  have hn := isIdentifier_count_newline group_name hg
  intro l hl
  simp only [prologueLines, List.mem_cons, List.mem_singleton, List.not_mem_nil,
    or_false] at hl
  rcases hl with rfl | rfl | rfl | rfl | rfl | rfl
  · decide
  · decide
  · simp [List.count_append, List.count_cons, hn]
  · simp [List.count_append, List.count_cons, hn]
  · decide
  · decide

theorem prologueLines_directives (group_name : Text) :
    (prologueLines group_name).filter (fun l => "#".toList.isPrefixOf l)
      = ["#ifndef __".toList ++ group_name ++ "__".toList,
          "#define __".toList ++ group_name ++ "__".toList, "#include <stdint.h>".toList] := by
  simp [prologueLines, List.filter_cons, List.isPrefixOf]

/-- The lines and the directives of a header: the prologue, a block of plain
lines, the epilogue. -/
theorem header_lines (group_name : Text) (hg : isIdentifier group_name = true)
    (ls : List Text) (hls : ∀ l ∈ ls, PlainLine l) :
    linesOf (joinLines (prologueLines group_name ++ ls ++ [[], "#endif".toList]))
        = prologueLines group_name ++ ls ++ [[], "#endif".toList]
      ∧ directives (joinLines (prologueLines group_name ++ ls ++ [[], "#endif".toList]))
        = ["#ifndef __".toList ++ group_name ++ "__".toList,
            "#define __".toList ++ group_name ++ "__".toList, "#include <stdint.h>".toList] ++
          ls.filter (fun l => "#".toList.isPrefixOf l) ++ ["#endif".toList] := by
  have hlines : linesOf (joinLines (prologueLines group_name ++ ls ++ [[], "#endif".toList]))
      = prologueLines group_name ++ ls ++ [[], "#endif".toList] := by
    apply linesOf_joinLines
    intro l hl
    rcases List.mem_append.mp hl with h | h
    · rcases List.mem_append.mp h with h | h
      · exact prologueLines_no_newline group_name hg l h
      · exact (hls l h).1
    · simp only [List.mem_cons, List.mem_singleton, List.not_mem_nil, or_false] at h
      rcases h with rfl | rfl <;> decide
  refine ⟨hlines, ?_⟩
  unfold directives
  rw [hlines, List.filter_append, List.filter_append, prologueLines_directives]
  have he : ([[], "#endif".toList] : List Text).filter (fun l => "#".toList.isPrefixOf l)
      = ["#endif".toList] := by decide
  rw [he]

theorem filter_plain (ls : List Text) (hls : ∀ l ∈ ls, PlainLine l) :
    ((ls.filter fun l => "#".toList.isPrefixOf l).filter
        fun l => "#if".toList.isPrefixOf l) = []
      ∧ ((ls.filter fun l => "#".toList.isPrefixOf l).filter
        fun l => "#endif".toList.isPrefixOf l) = [] := by
  constructor
  · rw [List.filter_eq_nil_iff]
    intro l hl
    have hp := hls l (List.mem_filter.mp hl).1
    rw [hp.2.1]
    exact Bool.false_ne_true
  · rw [List.filter_eq_nil_iff]
    intro l hl
    have hp := hls l (List.mem_filter.mp hl).1
    rw [hp.2.2]
    exact Bool.false_ne_true

/-- Claim C15. For every identifier group name and every sequence of
declaration-writing calls with identifier names, the declaration stream
written by `c_print_header_header`, the calls and `c_print_end_header` has
`#ifndef __<group>__` as its first directive (after two comment lines),
`#define __<group>__` as its second directive, on the line right after it,
and `#endif` as its last directive and last line; exactly one directive begins
with `#if` and exactly one with `#endif`. -/
theorem include_guard_balanced (tc group_name : Text) (calls : List HeaderCall)
    (hgroup : isIdentifier group_name = true)
    (hnames : ∀ call ∈ calls, ∀ n ∈ call.names, isIdentifier n = true) :
    ∃ tc' th' : Text,
      c_print_end_header
          (runHeaderCalls (c_print_header_header (streams tc []) group_name) calls)
        = streams tc' th'
      ∧ (directives th').head? = some ("#ifndef __".toList ++ group_name ++ "__".toList)
      ∧ (directives th')[1]? = some ("#define __".toList ++ group_name ++ "__".toList)
      ∧ (∃ i, (linesOf th')[i]? = some ("#ifndef __".toList ++ group_name ++ "__".toList)
          ∧ (linesOf th')[i + 1]?
            = some ("#define __".toList ++ group_name ++ "__".toList))
      ∧ (directives th').getLast? = some "#endif".toList
      ∧ (linesOf th').getLast? = some "#endif".toList
      ∧ ((directives th').filter fun l => "#if".toList.isPrefixOf l).length = 1
      ∧ ((directives th').filter fun l => "#endif".toList.isPrefixOf l).length = 1 := by
  obtain ⟨tc', t, hrun, ls, ht, hplain⟩ :=
    runHeaderCalls_block calls hnames tc (joinLines (prologueLines group_name))
  obtain ⟨hlines, hdir⟩ := header_lines group_name hgroup ls hplain
  obtain ⟨hf1, hf2⟩ := filter_plain ls hplain
  refine ⟨tc', joinLines (prologueLines group_name ++ ls ++ [[], "#endif".toList]),
    ?_, ?_, ?_, ⟨2, ?_, ?_⟩, ?_, ?_, ?_, ?_⟩
  · rw [c_print_header_header_lines, hrun, c_print_end_header_lines, ht, joinLines_append,
      joinLines_append]
  · rw [hdir]
    simp
  · rw [hdir]
    simp
  · rw [hlines]
    simp [prologueLines]
  · rw [hlines]
    simp [prologueLines]
  · rw [hdir, List.getLast?_concat]
  · rw [hlines]
    have e : prologueLines group_name ++ ls ++ [[], "#endif".toList]
        = (prologueLines group_name ++ ls ++ [[]]) ++ ["#endif".toList] := by simp
    rw [e, List.getLast?_concat]
  · rw [hdir, List.filter_append, List.filter_append, hf1]
    simp [List.filter_cons, List.isPrefixOf]
  · rw [hdir, List.filter_append, List.filter_append, hf2]
    simp [List.filter_cons, List.isPrefixOf]

/-- Witness of C15: the group `gfx` with a palette, images, tiles and an
appvar between the prologue and the epilogue. -/
theorem include_guard_balanced_witness :
    (isIdentifier "gfx".toList = true
      ∧ ∀ call ∈ scenarioHeaderCalls, ∀ n ∈ call.names, isIdentifier n = true)
    ∧ ∃ tc' th' : Text,
      c_print_end_header
          (runHeaderCalls (c_print_header_header (streams [] []) "gfx".toList)
            scenarioHeaderCalls)
        = streams tc' th'
      ∧ (directives th').head? = some ("#ifndef __".toList ++ "gfx".toList ++ "__".toList)
      ∧ (directives th')[1]? = some ("#define __".toList ++ "gfx".toList ++ "__".toList)
      ∧ (∃ i, (linesOf th')[i]? = some ("#ifndef __".toList ++ "gfx".toList ++ "__".toList)
          ∧ (linesOf th')[i + 1]?
            = some ("#define __".toList ++ "gfx".toList ++ "__".toList))
      ∧ (directives th').getLast? = some "#endif".toList
      ∧ (linesOf th').getLast? = some "#endif".toList
      ∧ ((directives th').filter fun l => "#if".toList.isPrefixOf l).length = 1
      ∧ ((directives th').filter fun l => "#endif".toList.isPrefixOf l).length = 1 :=
  ⟨by decide,
    include_guard_balanced [] "gfx".toList scenarioHeaderCalls (by decide) (by decide)⟩

end ConvPNG
